import Mathlib

/-!
The front-end of shortdrama_studio, `web/app.js`

A shallow embedding of the browser front-end `src/web/app.js` and the
properties of it that are checked against the natural-language specification.

Conventions of the embedding

* A JavaScript string is a Lean `String` (a list of Unicode scalar values).  All
  patterns searched for or replaced by the code are ASCII, so working on scalar
  values instead of UTF-16 code units does not change any result.
* The DOM is a record of the elements the code touches; an element that
  `document.getElementById` may fail to find is an `Option`.  A write to a missing
  element is skipped, as under the guard `if (el)`; elements that the code
  dereferences without a guard are taken to exist.
* The browser hands out interval handles from a counter that starts at 1.
* An `async` function is embedded sequentially: every `await` takes the answer of
  the environment (the backend, the network) as an explicit argument.  The
  interleaving of independent handlers is modelled separately by event traces
  (`PollEvent`, `runEvents`).
* A thrown exception is a value: functions that can throw return the state they
  reached together with `Option String` (the message of the error thrown).
-/

namespace ShortDrama

/-! ## Part I — definitions -/

/-! ### JavaScript string built-ins used by the code -/

/-- The apostrophe character U+0027. -/
def apostrophe : Char := Char.ofNat 39

/-- The double quote character U+0022. -/
def doubleQuote : Char := Char.ofNat 34

/-- `s.replace(/c/g, r)` for a pattern that is the single character `c` and a
replacement text `r` without `$` patterns: every occurrence of `c`, scanning left
to right, is replaced by `r`. -/
def replaceAll (c : Char) (r : List Char) : List Char → List Char
  | [] => []
  | x :: xs => if x = c then r ++ replaceAll c r xs else x :: replaceAll c r xs

/-- `s.startsWith(pat)`. -/
def startsWith (s pat : String) : Bool :=
  pat.data.isPrefixOf s.data

/-- Search of `pat` in `cs`, where `cs` is the part of the string from index `k` on:
the index of the first match, or `-1`. -/
def indexOfFrom (pat : List Char) : List Char → Nat → Int
  | [], k => if pat.isPrefixOf [] then (k : Int) else -1
  | c :: cs, k => if pat.isPrefixOf (c :: cs) then (k : Int) else indexOfFrom pat cs (k + 1)

/-- `s.indexOf(pat)`: the index of the first occurrence of `pat` in `s`, or `-1`. -/
def indexOf (s pat : String) : Int :=
  indexOfFrom pat.data s.data 0

/-- Scan for `s.includes(pat)` on character lists. -/
def includesList (pat : List Char) : List Char → Bool
  | [] => pat.isPrefixOf []
  | c :: cs => pat.isPrefixOf (c :: cs) || includesList pat cs

/-- `s.includes(pat)`. -/
def includes (s pat : String) : Bool :=
  includesList pat.data s.data

/-- `s.substring(start)` with one argument: the text from index `start` to the end. -/
def substring (s : String) (start : Nat) : String :=
  ⟨s.data.drop start⟩

/-- UTF-8 encoding of a Unicode scalar value, as a list of bytes. -/
def utf8Bytes (c : Nat) : List Nat :=
  if c < 0x80 then [c]
  else if c < 0x800 then [0xC0 + c / 64, 0x80 + c % 64]
  else if c < 0x10000 then [0xE0 + c / 4096, 0x80 + (c / 64) % 64, 0x80 + c % 64]
  else [0xF0 + c / 262144, 0x80 + (c / 4096) % 64, 0x80 + (c / 64) % 64, 0x80 + c % 64]

/-- Upper-case hexadecimal digit of a number below 16. -/
def hexDigit (n : Nat) : Char :=
  "0123456789ABCDEF".data.getD n '0'

/-- The percent escape `%XX` of one byte. -/
def percentByte (b : Nat) : List Char :=
  ['%', hexDigit (b / 16), hexDigit (b % 16)]

/-- The characters `encodeURIComponent` leaves alone: ASCII letters, digits and
`- _ . ! ~ * ( )` and the apostrophe. -/
def uriUnreserved (c : Char) : Bool :=
  c.isAlphanum || ['-', '_', '.', '!', '~', '*', '(', ')', apostrophe].contains c

/-- Escape of one character by `encodeURIComponent`. -/
def encodeURIChar (c : Char) : List Char :=
  if uriUnreserved c then [c] else (utf8Bytes c.toNat).flatMap percentByte

/-- The built-in `encodeURIComponent(s)` (ECMAScript `Encode` with the unreserved
set above) on a well-formed string. -/
def encodeURIComponent (s : String) : String :=
  ⟨s.data.flatMap encodeURIChar⟩

/-! ### `escapeHtml` (app.js 130–139) -/

/-- The chain of the five `replace` calls of `escapeHtml`, in the order of the
source (`&` first, the apostrophe last), on the characters of the text. -/
def escapeList (l : List Char) : List Char :=
  replaceAll apostrophe "&#039;".data
    (replaceAll doubleQuote "&quot;".data
      (replaceAll '>' "&gt;".data
        (replaceAll '<' "&lt;".data
          (replaceAll '&' "&amp;".data l))))

/-- Source: `escapeHtml(text)`.  `!text` is true exactly for the empty string. -/
def escapeHtml (text : String) : String :=
  if text = "" then "" else ⟨escapeList text.data⟩

/-- The per-character map of the specification: the five special characters go to
their entities, every other character to itself. -/
def escapeChar (c : Char) : List Char :=
  if c = '&' then "&amp;".data
  else if c = '<' then "&lt;".data
  else if c = '>' then "&gt;".data
  else if c = doubleQuote then "&quot;".data
  else if c = apostrophe then "&#039;".data
  else [c]

/-! ### `normalizePath` (app.js 141–161) -/

/-- The condition of the first `if` of `normalizePath`: the path contains one of
the three markers `.volces.com`, `.bytepluses.com`, `tos-`. -/
def hasTosMarker (path : String) : Bool :=
  includes path ".volces.com" || includes path ".bytepluses.com" || includes path "tos-"

/-- The proxy form `/api/proxy/tos?url=` followed by `encodeURIComponent(path)`. -/
def proxyForm (path : String) : String :=
  "/api/proxy/tos?url=" ++ encodeURIComponent path

/-- Source: `normalizePath(path)`. -/
def normalizePath (path : String) : String :=
  if path = "" then ""
  else if hasTosMarker path then proxyForm path
  else if startsWith path "http" || startsWith path "blob:" then path
  else
    let idx := indexOf path "data/"
    if idx ≠ -1 then "/" ++ substring path idx.toNat
    else if startsWith path "/" then path else "/" ++ path

/-- Host part of an `http://` or `https://` URL: the text after the scheme up to the
first `/`, `?`, `#` or `:`; `none` when the text is not such a URL. -/
def urlHost (path : String) : Option (List Char) :=
  let stop : Char → Bool := fun c => !(c = '/' || c = '?' || c = '#' || c = ':')
  if startsWith path "https://" then some ((path.data.drop 8).takeWhile stop)
  else if startsWith path "http://" then some ((path.data.drop 7).takeWhile stop)
  else none

/-- The specification's notion of a TOS URL: an http(s) URL whose host ends in
`.volces.com` (Volcengine) or `.bytepluses.com` (BytePlus). -/
def isTosUrl (path : String) : Bool :=
  match urlHost path with
  | some h => ".volces.com".data.isSuffixOf h || ".bytepluses.com".data.isSuffixOf h
  | none => false

/-! ### The page: DOM elements and the data sent by the backend -/

/-- A DOM element, reduced to what the code reads and writes: the `disabled`
property and the class list. -/
structure Element where
  disabled : Bool
  classList : List String
deriving DecidableEq, Repr

/-- `classList.add(...tokens)`: each token is appended unless already present. -/
def classListAdd (cl tokens : List String) : List String :=
  tokens.foldl (fun acc t => if acc.contains t then acc else acc ++ [t]) cl

/-- `classList.remove(...tokens)`. -/
def classListRemove (cl tokens : List String) : List String :=
  cl.filter (fun c => !tokens.contains c)

/-- `classList.toggle(token, force)`: add when `force` is true, remove otherwise. -/
def classListToggle (cl : List String) (token : String) (force : Bool) : List String :=
  if force then classListAdd cl [token] else classListRemove cl [token]

/-- The elements the script looks up once at load time (`const x =
document.getElementById(...)`): the buttons and the loading indicators. -/
inductive ElemId where
  | createBtn | btnEditScript | btnOptimizeScript | btnSaveScript
  | btnNextToCharacters | btnNextToScenes | btnNextToStoryboard | btnNextToPrompts
  | btnNextToImages | btnNextToVideos
  | btnGenStoryboard | btnSaveStoryboard
  | btnGenChars | btnGenCharPrompts | btnGenCharImages
  | btnGenScenes | btnGenScenePrompts | btnGenSceneImages
  | btnGenPrompts | btnSavePrompts | btnGenImages | btnGenVideos | btnMerge
  | scriptLoading | storyboardLoading | promptsLoading | imagesLoading | videosLoading
  | charLoading | sceneLoading
deriving DecidableEq, Repr

/-- One shot of a storyboard. -/
structure Shot where
  shot_number : Nat
deriving DecidableEq, Repr

/-- The `storyboard` object of a project; `shots` may be missing. -/
structure Storyboard where
  shots : Option (List Shot)
deriving DecidableEq, Repr

/-- The project JSON returned by `GET /api/projects/{id}`, with the fields the
modelled code reads.  A missing or `null` field is `none`; `shot_images` is an
object keyed by shot number; the entries of `image_paths` and `video_paths` are
strings or `null`. -/
structure Project where
  project_name : String
  status : String
  script : Option String
  input_type : Option String
  input_content : Option String
  characters : Option (List String)
  scenes : Option (List String)
  storyboard : Option Storyboard
  image_prompts : Option (List String)
  shot_images : Option (List (Nat × List String))
  image_paths : Option (List (Option String))
  video_paths : Option (List (Option String))
  final_video : Option String
  current_step : Option Int
deriving DecidableEq, Repr

/-- Observable actions, recorded in the order in which they happen. -/
inductive Effect where
  | alert (message : String)
  | consoleError (message : String)
  | request (method url : String)
  | setInterval (handle : Nat) (taskId : String)
  | clearInterval (handle : Nat)
  | updateStatus (msg color : String)
  | setInteractionState (enabled : Bool)
  | loadProject (id : Option String) (shouldSwitchTab : Bool)
  | loadHistory
  | onComplete
  | render (what : String)
deriving DecidableEq, Repr

/-- The mutable state of the page: the top-level `let` variables of `app.js`, the
part of the DOM the code writes to, the interval timers of the browser and the
record of observable actions.

The containers of the nine views, the status line and the text fields are taken to
be present in the page; `dom` gives the buttons and loading indicators, `none`
when `getElementById` found nothing.  `currentProject = none` is the state in which
the never-declared global `currentProject` has not been assigned yet. -/
structure AppState where
  mode : String
  projectId : Option String
  currentTab : String
  isScriptEditing : Bool
  currentDetailId : Option String
  currentProject : Option Project
  processingScenes : List Nat
  pollingInterval : Option Nat
  timers : List Nat
  nextTimer : Nat
  dom : ElemId → Option Element
  viewClass : String → List String
  statusText : String
  statusDot : String
  createStatus : String
  outScript : String
  log : List Effect

/-- JavaScript truthiness of a value that is a string, `null` or `undefined`. -/
def truthy (v : Option String) : Bool :=
  match v with
  | some t => t != ""
  | none => false

/-- JavaScript truthiness of a timer handle or `null`: a handle is a number. -/
def truthyHandle (v : Option Nat) : Bool :=
  match v with
  | some h => h != 0
  | none => false

/-- `a || b` on a string that may be missing. -/
def orElse (v : Option String) (dflt : String) : String :=
  match v with
  | some t => if t != "" then t else dflt
  | none => dflt

/-- Append an observable action to the record. -/
def AppState.emit (s : AppState) (e : Effect) : AppState :=
  { s with log := s.log ++ [e] }

/-- Apply `f` to the element `id` when it exists (`if (el) ...`). -/
def AppState.withElem (s : AppState) (id : ElemId) (f : Element → Element) : AppState :=
  match s.dom id with
  | some el => { s with dom := Function.update s.dom id (some (f el)) }
  | none => s

/-- Assign the class list of the view container with DOM id `id`. -/
def AppState.setViewClass (s : AppState) (id : String) (cl : List String) : AppState :=
  { s with viewClass := Function.update s.viewClass id cl }

/-- Assignment to the global `currentProject`. -/
def AppState.setCurrentProject (s : AppState) (p : Option Project) : AppState :=
  { s with currentProject := p }

/-- Assignment to `outScript.value`. -/
def AppState.setOutScript (s : AppState) (text : String) : AppState :=
  { s with outScript := text }

/-- Assignment to the variable `projectId`. -/
def AppState.setProjectId (s : AppState) (id : Option String) : AppState :=
  { s with projectId := id }

/-- The `views` table: tab name to the DOM id of its container. -/
def views : List (String × String) :=
  [("input", "view-input"), ("script", "view-script"), ("characters", "view-characters"),
   ("scenes", "view-scenes"), ("storyboard", "view-storyboard"), ("prompts", "view-prompts"),
   ("images", "view-images"), ("videos", "view-videos"), ("output", "view-output")]

/-- The `tabs` array. -/
def tabs : List String :=
  ["input", "script", "characters", "scenes", "storyboard", "prompts", "images", "videos",
   "output"]

/-- The `STEP_TABS` array. -/
def STEP_TABS : List String :=
  ["script", "characters", "scenes", "storyboard", "prompts", "images", "videos", "videos",
   "output"]

/-- Source: `updateStatus(msg, color)`. -/
def updateStatus (msg color : String) (s : AppState) : AppState :=
  ({ s with statusText := msg
            statusDot := "w-2 h-2 rounded-full mr-2 bg-" ++ color ++ "-500" }).emit
    (Effect.updateStatus msg color)

/-- The `buttons` array of `setInteractionState`. -/
def interactionButtons : List ElemId :=
  [.createBtn, .btnEditScript, .btnOptimizeScript, .btnSaveScript,
   .btnGenStoryboard, .btnSaveStoryboard, .btnGenPrompts, .btnSavePrompts,
   .btnGenImages, .btnGenVideos, .btnMerge,
   .btnNextToStoryboard, .btnNextToPrompts, .btnNextToImages, .btnNextToVideos]

/-- The body of the `forEach` of `setInteractionState` on an existing button. -/
def interactionElem (enabled : Bool) (el : Element) : Element :=
  { disabled := !enabled
    classList :=
      if !enabled then classListAdd el.classList ["opacity-50", "cursor-not-allowed"]
      else classListRemove el.classList ["opacity-50", "cursor-not-allowed"] }

/-- Source: `setInteractionState(enabled)`. -/
def setInteractionState (enabled : Bool) (s : AppState) : AppState :=
  (interactionButtons.foldl (fun st id => st.withElem id (interactionElem enabled)) s).emit
    (Effect.setInteractionState enabled)

/-- The element that `setLoading(step, _)` looks up for `step`. -/
def loadingElem (step : String) : Option ElemId :=
  if step = "storyboard" then some .storyboardLoading
  else if step = "prompts" then some .promptsLoading
  else if step = "images" then some .imagesLoading
  else if step = "videos" then some .videosLoading
  else if step = "characters" then some .charLoading
  else if step = "scenes" then some .sceneLoading
  else none

/-- Source: `setLoading(step, isLoading)`. -/
def setLoading (step : String) (isLoading : Bool) (s : AppState) : AppState :=
  match loadingElem step with
  | some id =>
    s.withElem id (fun el => Element.mk el.disabled
      (if isLoading then classListRemove el.classList ["hidden"]
       else classListAdd el.classList ["hidden"]))
  | none => s

/-- The loop `[...].forEach(s => setLoading(s, false))` over the six steps. -/
def hideAllLoading (s : AppState) : AppState :=
  ["storyboard", "prompts", "images", "videos", "characters", "scenes"].foldl
    (fun st step => setLoading step false st) s

/-- Source: `switchTab(tabName)`; the restyling of the navigation buttons is not
modelled.  `views[tabName]` is the lookup among the nine own keys of `views`; the
program never passes a name inherited from `Object.prototype`, for which the
lookup would yield a value that is no DOM id and the show step would throw after
the views were hidden. -/
def switchTab (tabName : String) (s : AppState) : AppState :=
  let s1 := { s with currentTab := tabName }
  let s2 := (views.map Prod.snd).foldl (fun st id => st.setViewClass id
    (classListAdd (st.viewClass id) ["hidden"])) s1
  match views.lookup tabName with
  | some id => s2.setViewClass id (classListRemove (s2.viewClass id) ["hidden"])
  | none => s2

/-! ### `updateNextButtonState` (app.js 825–903) -/

/-- The value of `hasShots`, as a truth value. -/
def hasShots (p : Project) : Bool :=
  match p.storyboard with
  | some sb =>
    match sb.shots with
    | some shots => decide (shots.length > 0)
    | none => false
  | none => false

/-- The value of `p.storyboard.shots.length` where the code reads it (under `hasShots`). -/
def shotCount (p : Project) : Nat :=
  match p.storyboard with
  | some sb =>
    match sb.shots with
    | some shots => shots.length
    | none => 0
  | none => 0

/-- The test `!p.shot_images[i] || p.shot_images[i].length === 0`. -/
def shotLacksImages (shotImages : List (Nat × List String)) (i : Nat) : Bool :=
  match shotImages.lookup i with
  | some imgs => imgs.length == 0
  | none => true

/-- The `for (let i = 1; i <= shotCount; i++)` loop with its `break`, started at `i`,
with `fuel` bounding the number of iterations left. -/
def shotImagesLoop (shotImages : List (Nat × List String)) (shotCount : Nat) :
    Nat → Nat → Bool
  | 0, _ => true
  | fuel + 1, i =>
    if i ≤ shotCount then
      if shotLacksImages shotImages i then false
      else shotImagesLoop shotImages shotCount fuel (i + 1)
    else true

/-- The test `paths.length >= n && paths.every(path => !!path)`. -/
def pathsComplete (paths : List (Option String)) (n : Nat) : Bool :=
  decide (paths.length ≥ n) && paths.all (fun path => truthy path)

/-- The final value of `allShotsHaveImages`: `false` unless one of the two branches
of the `if … else if` assigns it. -/
def allShotsHaveImages (p : Project) : Bool :=
  if hasShots p && p.shot_images.isSome then
    match p.shot_images with
    | some shotImages => shotImagesLoop shotImages (shotCount p) (shotCount p) 1
    | none => false
  else if hasShots p && p.image_paths.isSome then
    match p.image_paths with
    | some paths => pathsComplete paths (shotCount p)
    | none => false
  else false

/-- The final value of `allShotsHaveVideos`. -/
def allShotsHaveVideos (p : Project) : Bool :=
  if hasShots p && p.video_paths.isSome then
    match p.video_paths with
    | some paths => pathsComplete paths (shotCount p)
    | none => false
  else false

/-- `btn.disabled = !ok` followed by `classList.toggle(c, !ok)` for each class `c`. -/
def enableWhen (ok : Bool) (classes : List String) (el : Element) : Element :=
  { disabled := !ok
    classList := classes.foldl (fun cl c => classListToggle cl c (!ok)) el.classList }

/-- `x && x.length > 0` for an array that may be missing. -/
def nonEmptyArray (v : Option (List String)) : Bool :=
  match v with
  | some l => decide (l.length > 0)
  | none => false

/-- Source: `updateNextButtonState(p)`; `p = none` is a `null` argument. -/
def updateNextButtonState (p : Option Project) (s : AppState) : AppState :=
  match p with
  | none => s
  | some p =>
    let s := s.withElem .btnNextToCharacters (enableWhen (truthy p.script) ["opacity-50"])
    let s := s.withElem .btnNextToScenes
      (enableWhen (nonEmptyArray p.characters) ["opacity-50"])
    let s := s.withElem .btnNextToStoryboard
      (enableWhen (nonEmptyArray p.scenes) ["opacity-50"])
    let s := s.withElem .btnNextToPrompts
      (enableWhen (hasShots p) ["opacity-50", "cursor-not-allowed"])
    let s := s.withElem .btnNextToImages
      (enableWhen (nonEmptyArray p.image_prompts) ["opacity-50", "cursor-not-allowed"])
    let s := s.withElem .btnNextToVideos
      (enableWhen (allShotsHaveImages p) ["opacity-50", "cursor-not-allowed"])
    s.withElem .btnMerge
      (enableWhen (allShotsHaveVideos p) ["opacity-50", "cursor-not-allowed"])

/-! ### Answers of the backend -/

/-- What `await fetch(url)` followed by `await res.json()` can yield: `fetch` rejects
(no response), or a response arrives whose body is not JSON (`res.json()` rejects),
or a response arrives with the JSON body `data`; `ok` is `res.ok`. -/
inductive Fetched (α : Type) where
  | rejected (message : String)
  | unparsable (ok : Bool) (message : String)
  | json (ok : Bool) (data : α)

/-- What `await fetch(url)` can yield where the code reads `res.ok` only. -/
inductive Responded where
  | rejected (message : String)
  | response (ok : Bool)

/-- The task JSON of `GET /api/tasks/{id}`. -/
structure Task where
  status : String
  error : Option String
  progress : Option Nat

/-- The body answered to `POST /api/projects/{id}/{step}`. -/
structure StepData where
  message : Option String
  error : Option String
  task_id : Option String

/-- The body answered to `POST /api/projects`. -/
structure CreateData where
  error : Option String
  project_id : Option String

/-- The body answered to `POST /api/projects/{id}/script`. -/
structure ScriptData where
  error : Option String
  task_id : Option String
  script : Option String

/-- Text of an identifier inside a template literal; a missing one prints as
`null`. -/
def idText (id : Option String) : String :=
  match id with
  | some t => t
  | none => "null"

/-! ### Polling (app.js 1729–1781) and `loadProject` (app.js 905–960) -/

/-- The callbacks passed as `onComplete` in this program: the only one is the
arrow function of `regenerateSceneImage`, `processingScenes.delete(index)`. -/
inductive OnComplete where
  | releaseScene (index : Nat)

/-- The browser's `clearInterval(handle)`; `clearInterval(null)` does nothing. -/
def clearInterval (handle : Option Nat) (s : AppState) : AppState :=
  match handle with
  | some h => ({ s with timers := s.timers.filter (fun t => t != h) }).emit
      (Effect.clearInterval h)
  | none => s

/-- The two statements `clearInterval(pollingInterval); pollingInterval = null;`. -/
def stopPolling (s : AppState) : AppState :=
  { clearInterval s.pollingInterval s with pollingInterval := none }

/-- Source: `startPolling(taskId, onComplete)`, the synchronous part: the tracked
interval is cleared when `pollingInterval` is truthy, then `setInterval` starts a
timer whose fresh handle is stored.  The callback of the timer is `pollTick`. -/
def startPolling (taskId : String) (_onComplete : Option OnComplete) (s : AppState) :
    AppState :=
  let s1 := if truthyHandle s.pollingInterval then clearInterval s.pollingInterval s else s
  let h := s1.nextTimer
  ({ s1 with pollingInterval := some h
             timers := s1.timers ++ [h]
             nextTimer := h + 1 }).emit (Effect.setInterval h taskId)

/-- `if (onComplete) onComplete();`. -/
def runOnComplete (onComplete : Option OnComplete) (s : AppState) : AppState :=
  match onComplete with
  | some (OnComplete.releaseScene index) =>
    ({ s with processingScenes := s.processingScenes.filter (fun i => i != index) }).emit
      Effect.onComplete
  | none => s

/-- `STEP_TABS[p.current_step] || 'script'`. -/
def stepTab (current_step : Option Int) : String :=
  match current_step with
  | some n => if 0 ≤ n then orElse (STEP_TABS[n.toNat]?) "script" else "script"
  | none => "script"

/-- `classList.add('hidden')` or `classList.remove('hidden')` on an element. -/
def setHidden (hidden : Bool) (el : Element) : Element :=
  Element.mk el.disabled
    (if hidden then classListAdd el.classList ["hidden"]
     else classListRemove el.classList ["hidden"])

/-- The seven `render…(p)` calls of `loadProject`.  Of their effects only the ones on
modelled elements are kept: `renderStoryboard` shows the save button exactly when
there are shots, `renderPrompts` when there are image prompts. -/
def renderProject (p : Project) (s : AppState) : AppState :=
  let s := s.withElem .btnSaveStoryboard (setHidden (!hasShots p))
  let s := s.withElem .btnSavePrompts (setHidden (!nonEmptyArray p.image_prompts))
  s.emit (Effect.render "project")

/-- The text assigned to `outScript.value` by `loadProject`. -/
def scriptText (p : Project) : String :=
  if truthy p.script then orElse p.script ""
  else if p.input_type = some "script" then orElse p.input_content ""
  else ""

/-- The six conditional `setLoading(…, false)` lines of `loadProject`. -/
def settleLoading (p : Project) (s : AppState) : AppState :=
  let s := if (match p.storyboard with
               | some sb => sb.shots.isSome
               | none => false) then setLoading "storyboard" false s else s
  let s := if nonEmptyArray p.characters then setLoading "characters" false s else s
  let s := if nonEmptyArray p.scenes then setLoading "scenes" false s else s
  let s := if nonEmptyArray p.image_prompts then setLoading "prompts" false s else s
  let s := if (match p.shot_images with
               | some m => decide (m.length > 0)
               | none => false) then setLoading "images" false s else s
  if (match p.video_paths with
      | some l => decide (l.length > 0)
      | none => false) then setLoading "videos" false s else s

/-- The block `if (p.status === 'completed') { … }` of `loadProject`. -/
def completedBlock (p : Project) (s : AppState) : AppState :=
  if p.status = "completed" then
    let s := hideAllLoading s
    if truthyHandle s.pollingInterval then
      setInteractionState true (updateStatus "所有任务已完成" "green" (stopPolling s))
    else s
  else s

/-- The block `if (shouldSwitchTab) { … }` of `loadProject`. -/
def resumeTab (p : Project) (shouldSwitchTab : Bool) (s : AppState) : AppState :=
  if shouldSwitchTab then
    if p.status = "completed" || truthy p.final_video then switchTab "output" s
    else switchTab (stepTab p.current_step) s
  else s

/-- The synchronous start of `loadProject(id, shouldSwitchTab)`: `projectId = id` and
the request is sent. -/
def loadProjectBegin (id : Option String) (shouldSwitchTab : Bool) (s : AppState) :
    AppState :=
  ((s.setProjectId id).emit (Effect.loadProject id shouldSwitchTab)).emit
    (Effect.request "GET" ("/api/projects/" ++ idText id))

/-- Lines 911–938 of `loadProject`: the project is cached, the status line and the
next-step buttons are updated, the views are filled and the loading indicators settled. -/
def showProject (p : Project) (s : AppState) : AppState :=
  let s := s.setCurrentProject (some p)
  let s := updateStatus ("当前项目: " ++ p.project_name ++ " (" ++ p.status ++ ")") "gray" s
  let s := updateNextButtonState (some p) s
  let s := s.setOutScript (scriptText p)
  let s := renderProject p s
  settleLoading p s

/-- Source: `loadProject(id, shouldSwitchTab)`, run to completion with the answer
`resp` of the backend.  The second component is the error with which the returned
promise rejects, if it does. -/
def loadProject (id : Option String) (shouldSwitchTab : Bool) (resp : Fetched Project)
    (s : AppState) : AppState × Option String :=
  let s := loadProjectBegin id shouldSwitchTab s
  match resp with
  | .rejected m => (s, some m)
  | .unparsable _ m => (s, some m)
  | .json ok p =>
    if !ok then (s, none)
    else (resumeTab p shouldSwitchTab (completedBlock p (showProject p s)), none)

/-- The answers of the backend during one tick: to the task request and to the
project request of the `loadProject` the tick may call. -/
structure TickEnv where
  task : Fetched Task
  project : Fetched Project

/-- The lines `scriptLoading.classList.add('hidden')` and the `setLoading(s, false)`
loop that end both terminal branches of a tick; a missing `scriptLoading` element
makes the first line throw. -/
def hideIndicators (s : AppState) : AppState × Option String :=
  match s.dom .scriptLoading with
  | some _ => (hideAllLoading (s.withElem .scriptLoading (setHidden true)), none)
  | none => (s, some "Cannot read properties of null (reading 'classList')")

/-- The `catch (e) { console.error("Polling error", e); }` of a tick. -/
def pollCatch (r : AppState × Option String) : AppState :=
  match r.2 with
  | some m => r.1.emit (Effect.consoleError m)
  | none => r.1

/-- The branch `task.status === 'completed'` of a tick.  The 1.5 s pause is an
`await` without effect on the state. -/
def tickCompleted (onComplete : Option OnComplete) (project : Fetched Project)
    (s : AppState) : AppState × Option String :=
  let s := stopPolling s
  let s := updateStatus "任务已完成，正在同步数据..." "green" s
  let s := runOnComplete onComplete s
  match loadProject s.projectId false project s with
  | (s, some m) => (s, some m)
  | (s, none) => hideIndicators (setInteractionState true s)

/-- The branch `task.status === 'failed'` of a tick. -/
def tickFailed (task : Task) (onComplete : Option OnComplete) (project : Fetched Project)
    (s : AppState) : AppState × Option String :=
  let s := stopPolling s
  let s := updateStatus ("任务失败: " ++ orElse task.error "未知错误") "red" s
  let s := runOnComplete onComplete s
  let s := setInteractionState true s
  match hideIndicators s with
  | (s, some m) => (s, some m)
  | (s, none) => loadProject s.projectId false project s

/-- The last branch of a tick: the task is still running. -/
def tickRunning (task : Task) (project : Fetched Project) (s : AppState) :
    AppState × Option String :=
  let s := updateStatus
    ("任务执行中... (" ++ toString (task.progress.getD 0) ++ "%)") "blue" s
  if truthy s.projectId then loadProject s.projectId false project s
  else (s, none)

/-- The `try` block of a tick, from the task request on. -/
def pollTry (taskId : String) (onComplete : Option OnComplete) (env : TickEnv)
    (s : AppState) : AppState × Option String :=
  let s := s.emit (Effect.request "GET" ("/api/tasks/" ++ taskId))
  match env.task with
  | .rejected m => (s, some m)
  | .unparsable ok m => if !ok then (s, none) else (s, some m)
  | .json ok task =>
    if !ok then (s, none)
    else if task.status = "completed" then tickCompleted onComplete env.project s
    else if task.status = "failed" then tickFailed task onComplete env.project s
    else tickRunning task env.project s

/-- One run of the interval callback of `startPolling(taskId, onComplete)`. -/
def pollTick (taskId : String) (onComplete : Option OnComplete) (env : TickEnv)
    (s : AppState) : AppState :=
  pollCatch (pollTry taskId onComplete env s)

/-- The steps that can change the timers, as they interleave on the event loop.
`tick` is a whole tick; `tickStop` is the terminal segment of a tick that was
already in flight (its task request answered `completed` or `failed`) and resumes
at any later moment, whatever happened to the timers meanwhile. -/
inductive PollEvent where
  | startPolling (taskId : String) (onComplete : Option OnComplete)
  | tick (taskId : String) (onComplete : Option OnComplete) (env : TickEnv)
  | tickStop
  | loadProject (id : Option String) (shouldSwitchTab : Bool) (resp : Fetched Project)

/-- The state after one event. -/
def stepEvent (s : AppState) (e : PollEvent) : AppState :=
  match e with
  | .startPolling taskId onComplete => startPolling taskId onComplete s
  | .tick taskId onComplete env => pollTick taskId onComplete env s
  | .tickStop => stopPolling s
  | .loadProject id shouldSwitchTab resp => (loadProject id shouldSwitchTab resp s).1

/-- The state after a sequence of events. -/
def runEvents (s : AppState) (evs : List PollEvent) : AppState :=
  evs.foldl stepEvent s

/-- The part of the state the timers live in: the variable `pollingInterval`, the
active interval handles of the browser, and the next handle it will hand out. -/
def timerView (s : AppState) : Option Nat × List Nat × Nat :=
  (s.pollingInterval, s.timers, s.nextTimer)

/-- The status line, the variables `projectId` and `currentProject`, and the record
of actions. -/
def coreView (s : AppState) : String × String × Option String × Option Project × List Effect :=
  (s.statusText, s.statusDot, s.projectId, s.currentProject, s.log)

/-- The timer invariant on a timer view: every active handle is the tracked one, at
most one handle is active, and the tracked handle is positive (as the HTML standard
requires of `setInterval`) and older than the next handle. -/
def TimerInvOn (v : Option Nat × List Nat × Nat) : Prop :=
  (∀ h ∈ v.2.1, v.1 = some h) ∧ v.2.1.length ≤ 1 ∧ 1 ≤ v.2.2 ∧
    ∀ h, v.1 = some h → 1 ≤ h ∧ h < v.2.2

/-- The timer invariant of a state. -/
def TimerInv (s : AppState) : Prop :=
  TimerInvOn (timerView s)

/-- A tick observes a terminal task status: the task request is answered with an OK
response whose JSON has status `completed` or `failed`. -/
def observesTerminal (task : Fetched Task) : Bool :=
  match task with
  | .json true t => t.status == "completed" || t.status == "failed"
  | _ => false

/-- A tick observes a running task: an OK response whose JSON has any other status. -/
def observesRunning (task : Fetched Task) : Bool :=
  match task with
  | .json true t => !(t.status == "completed" || t.status == "failed")
  | _ => false

/-- The project request is answered with an OK response whose JSON has status
`completed`. -/
def refreshCompleted (project : Fetched Project) : Bool :=
  match project with
  | .json true p => p.status == "completed"
  | _ => false

/-- The ticks of one interval, one after the other, each with its own answers. -/
def runTicks (taskId : String) (onComplete : Option OnComplete) (s : AppState)
    (envs : List TickEnv) : AppState :=
  envs.foldl (fun st env => pollTick taskId onComplete env st) s

/-! ### The operations that call the backend -/

/-- `tabMap[stepName] || stepName` of `callStep`. -/
def tabOfStep (stepName : String) : String :=
  if stepName = "merge" then "output"
  else if stepName = "characters/prompts" then "characters"
  else if stepName = "characters/images" then "characters"
  else if stepName = "scenes/prompts" then "scenes"
  else if stepName = "scenes/images" then "scenes"
  else stepName

/-- The condition under which `callStep` uses the global loading indicator. -/
def usesGlobalLoading (stepName : String) : Bool :=
  stepName != "images" && stepName != "videos" && stepName != "characters/images" &&
    stepName != "scenes/images"

/-- `stepName.split('/')[0]`: the text before the first `/`. -/
def stepHead (stepName : String) : String :=
  ⟨stepName.data.takeWhile (fun c => c != '/')⟩

/-- The guarded call `setLoading(stepName.split('/')[0], isLoading)` of `callStep`. -/
def stepLoading (stepName : String) (isLoading : Bool) (s : AppState) : AppState :=
  if usesGlobalLoading stepName then setLoading (stepHead stepName) isLoading s else s

/-- The answers of the backend during `callStep`: to the POST of the step and to the
project request of the `loadProject` that follows when no task was started. -/
structure StepEnv where
  post : Fetched StepData
  project : Fetched Project

/-- The statements of the `try` block of `callStep` after the POST has been sent. -/
def callStepTry (stepName : String) (env : StepEnv) (s : AppState) :
    AppState × Option String :=
  match env.post with
  | .rejected m => (s, some m)
  | .unparsable _ m => (s, some m)
  | .json ok data =>
    if !ok && data.message != some "skipped" then (s, some (orElse data.error "执行失败"))
    else
      let s := if !ok then s.emit (Effect.alert "已跳过此步骤") else s
      if truthy data.task_id then
        let s := updateStatus ("任务运行中: " ++ idText data.task_id) "blue" s
        let s := startPolling (idText data.task_id) none s
        (switchTab (tabOfStep stepName) s, none)
      else
        match loadProject s.projectId true env.project s with
        | (s, some m) => (s, some m)
        | (s, none) =>
          let s := updateStatus "执行成功" "green" s
          let s := setInteractionState true s
          (switchTab (tabOfStep stepName) s, none)

/-- The `catch (e)` block of `callStep`, `message` being `e.message`.  The final
`loadProject(projectId, false)` is not awaited: only its synchronous start belongs
to `callStep`. -/
def callStepCatch (stepName message : String) (s : AppState) : AppState :=
  let s := updateStatus ("错误: " ++ message) "red" s
  let s := setInteractionState true s
  let s := stepLoading stepName false s
  let s := if stepName = "merge" then s.emit (Effect.render "output") else s
  if truthy s.projectId then loadProjectBegin s.projectId false s else s

/-- The optimistic update of `callStep` on the cached project `cp`: its status
becomes `in_progress`, and for the steps `images` and `videos` the shots are
re-rendered as processing. -/
def optimisticUpdate (stepName : String) (cp : Project) (s : AppState) : AppState :=
  let s := s.setCurrentProject (some { cp with status := "in_progress" })
  if (stepName = "images" || stepName = "videos") &&
      (match cp.storyboard with
       | some sb => sb.shots.isSome
       | none => false) then
    s.emit (Effect.render stepName)
  else s

/-- The statements of `callStep` from `switchTab` to `setInteractionState(false)`. -/
def callStepPrepare (stepName : String) (s : AppState) : AppState :=
  let s := switchTab (tabOfStep stepName) s
  let s := updateStatus ("正在执行: " ++ stepName ++ "...") "blue" s
  let s := stepLoading stepName true s
  let s := if stepName = "merge" then s.emit (Effect.render "merging") else s
  setInteractionState false s

/-- The optimistic update followed by the sending of the POST. -/
def callStepPost (stepName : String) (cp : Project) (s : AppState) : AppState :=
  (optimisticUpdate stepName cp s).emit
    (Effect.request "POST" ("/api/projects/" ++ idText s.projectId ++ "/" ++ stepName))

/-- Source: `callStep(stepName, payload)`, run to completion.  Reading the global
`currentProject` before any project was loaded throws a `ReferenceError`, outside
the `try` block. -/
def callStep (stepName : String) (env : StepEnv) (s : AppState) :
    AppState × Option String :=
  if !truthy s.projectId then (s.emit (Effect.alert "请先创建项目"), none)
  else
    let s := callStepPrepare stepName s
    match s.currentProject with
    | none => (s, some "currentProject is not defined")
    | some cp =>
      match callStepTry stepName env (callStepPost stepName cp s) with
      | (s, some m) => (callStepCatch stepName m s, none)
      | (s, none) => (s, none)

/-- Source: `generateScript()`, run to completion with the answer of the backend. -/
def generateScript (resp : Fetched ScriptData) (s : AppState) : AppState :=
  let s := s.withElem .scriptLoading (setHidden false)
  let s := setInteractionState false s
  let s := s.emit (Effect.request "POST" ("/api/projects/" ++ idText s.projectId ++ "/script"))
  let fail := fun (m : String) (s : AppState) =>
    setInteractionState true
      ((updateStatus ("剧本生成失败: " ++ m) "red" s).withElem .scriptLoading (setHidden true))
  match resp with
  | .rejected m => fail m s
  | .unparsable _ m => fail m s
  | .json ok data =>
    if !ok then fail (orElse data.error "生成失败") s
    else if truthy data.task_id then
      startPolling (idText data.task_id) none
        (updateStatus ("剧本生成中... Task ID: " ++ idText data.task_id) "blue" s)
    else if truthy data.script then
      setInteractionState true
        ((updateStatus "剧本生成完成" "green"
          (s.setOutScript (orElse data.script ""))).withElem .scriptLoading (setHidden true))
    else s

/-- What `createProject` reads from the form: the trimmed topic and the trimmed
script text. -/
structure CreateForm where
  topic : String
  script : String

/-- The inputs of `createProject`: the form, the answer to its POST, and the answer
to the POST of the `generateScript` it awaits in topic mode. -/
structure CreateEnv where
  form : CreateForm
  post : Fetched CreateData
  script : Fetched ScriptData

/-- The `try` block of `createProject`. -/
def createProjectTry (env : CreateEnv) (s : AppState) : AppState × Option String :=
  if s.mode = "topic" && env.form.topic = "" then (s, some "请输入主题")
  else if s.mode != "topic" && env.form.script = "" then (s, some "请输入剧本")
  else
    let s := s.emit (Effect.request "POST" "/api/projects")
    match env.post with
    | .rejected m => (s, some m)
    | .unparsable _ m => (s, some m)
    | .json ok data =>
      if !ok then (s, some (orElse data.error "创建失败"))
      else
        let s := s.setProjectId data.project_id
        let s := updateStatus ("项目已创建: " ++ idText data.project_id) "green" s
        let s := s.emit Effect.loadHistory
        let s := switchTab "script" s
        if s.mode = "topic" then (generateScript env.script s, none)
        else (s.setOutScript env.form.script, none)

/-- Assignment to `createStatus.textContent`. -/
def AppState.setCreateStatus (s : AppState) (text : String) : AppState :=
  { s with createStatus := text }

/-- `createBtn.disabled = b`. -/
def setCreateDisabled (b : Bool) (el : Element) : Element :=
  Element.mk b el.classList

/-- Source: `createProject()`, run to completion. -/
def createProject (env : CreateEnv) (s : AppState) : AppState :=
  let s := s.withElem .createBtn (setCreateDisabled true)
  let s := s.setCreateStatus "创建中..."
  let s := match createProjectTry env s with
    | (s, some m) => (updateStatus ("错误: " ++ m) "red" s).setCreateStatus ""
    | (s, none) => s
  s.withElem .createBtn (setCreateDisabled false)

/-- Source: `toggleScriptEdit()`, on the modelled elements. -/
def toggleScriptEdit (s : AppState) : AppState :=
  let editing := !s.isScriptEditing
  let s := { s with isScriptEditing := editing }
  let red := ["bg-red-50", "text-red-600", "border-red-200"]
  let s := s.withElem .btnEditScript (fun el => Element.mk el.disabled
    (if editing then classListAdd el.classList red else classListRemove el.classList red))
  s.withElem .btnSaveScript (setHidden (!editing))

/-- Source: `saveScriptContent()`. -/
def saveScriptContent (resp : Responded) (s : AppState) : AppState :=
  let s := s.emit (Effect.request "PUT" ("/api/projects/" ++ idText s.projectId ++ "/script"))
  match resp with
  | .rejected m => updateStatus ("保存失败: " ++ m) "red" s
  | .response ok =>
    if !ok then updateStatus ("保存失败: " ++ "保存失败") "red" s
    else updateStatus "剧本已保存" "green" (toggleScriptEdit s)

/-- Source: `saveStoryboard()`, from the request on (the shots are collected from
the cards before the `try`). -/
def saveStoryboard (resp : Responded) (s : AppState) : AppState :=
  let s := s.emit
    (Effect.request "PUT" ("/api/projects/" ++ idText s.projectId ++ "/storyboard"))
  match resp with
  | .rejected m => updateStatus ("保存分镜失败: " ++ m) "red" s
  | .response ok =>
    if !ok then updateStatus ("保存分镜失败: " ++ "保存失败") "red" s
    else updateStatus "分镜已保存" "green" s

/-- Source: `savePromptsData()`: the project is fetched, the prompts are merged into
it, and the result is sent back. -/
def savePromptsData (get : Fetched Project) (put : Responded) (s : AppState) : AppState :=
  let s := s.emit (Effect.request "GET" ("/api/projects/" ++ idText s.projectId))
  let fail := fun (m : String) (s : AppState) => updateStatus ("保存提示词失败: " ++ m) "red" s
  match get with
  | .rejected m => fail m s
  | .unparsable _ m => fail m s
  | .json ok _ =>
    if !ok then fail "获取项目信息失败" s
    else
      let s := s.emit
        (Effect.request "PUT" ("/api/projects/" ++ idText s.projectId ++ "/prompts"))
      match put with
      | .rejected m => fail m s
      | .response ok2 =>
        if !ok2 then fail "保存失败" s
        else updateStatus "提示词已保存" "green" s

/-- Source: `deleteProject()`; `confirmed` is the answer to the `confirm` dialog. -/
def deleteProject (confirmed : Bool) (resp : Responded) (s : AppState) : AppState :=
  if !truthy s.currentDetailId then s
  else if !confirmed then s
  else
    let s := s.emit (Effect.request "DELETE" ("/api/projects/" ++ idText s.currentDetailId))
    match resp with
    | .rejected m => s.emit (Effect.alert m)
    | .response ok =>
      if !ok then s.emit (Effect.alert "删除失败")
      else
        let s := s.emit Effect.loadHistory
        if s.projectId = s.currentDetailId then
          updateStatus "项目已删除" "gray" (switchTab "input" (s.setProjectId none))
        else s

/-! ### `setupEventListeners` (app.js 261–293): the buttons that start a step -/

/-- The `click` listeners of `setupEventListeners` that call `callStep`, in the order
of the source: the button and the step name it passes. -/
def callStepBindings : List (ElemId × String) :=
  [(.btnNextToCharacters, "characters"), (.btnNextToScenes, "scenes"),
   (.btnNextToStoryboard, "storyboard"), (.btnNextToPrompts, "prompts"),
   (.btnNextToImages, "images"), (.btnNextToVideos, "videos"),
   (.btnGenChars, "characters"), (.btnGenCharPrompts, "characters/prompts"),
   (.btnGenCharImages, "characters/images"),
   (.btnGenScenes, "scenes"), (.btnGenScenePrompts, "scenes/prompts"),
   (.btnGenSceneImages, "scenes/images"),
   (.btnGenStoryboard, "storyboard"), (.btnGenPrompts, "prompts"),
   (.btnGenImages, "images"), (.btnGenVideos, "videos"), (.btnMerge, "merge")]

/-- A click of the user on the button `id`: the browser dispatches `click` only on an
existing button that is not disabled, and the listener bound by
`setupEventListeners` then runs `callStep` with its step name. -/
def clickStepButton (id : ElemId) (env : StepEnv) (s : AppState) :
    AppState × Option String :=
  match s.dom id with
  | some el =>
    if el.disabled then (s, none)
    else
      match callStepBindings.lookup id with
      | some stepName => callStep stepName env s
      | none => (s, none)
  | none => (s, none)

/-- The buttons that start a generation step and are not in the list of
`setInteractionState`. -/
def uncontrolledStepButtons : List ElemId :=
  (callStepBindings.map Prod.fst).filter (fun id => !interactionButtons.contains id)

/-- The view container with DOM id `id` is hidden: its class list contains `hidden`;
it is visible otherwise. -/
def ViewHidden (s : AppState) (id : String) : Prop :=
  "hidden" ∈ s.viewClass id

/-! ### Failed backend calls and their surfacing, as the specification words them -/

/-- The message of the error with which the POST of `callStep` fails: `fetch` or the
JSON parsing throws, or the response is not OK with a message other than
`skipped`; `none` when the POST does not fail. -/
def stepFailure (post : Fetched StepData) : Option String :=
  match post with
  | .rejected m => some m
  | .unparsable _ m => some m
  | .json ok data =>
    if !ok && data.message != some "skipped" then some (orElse data.error "执行失败")
    else none

/-- The message of the error of a failed request whose JSON body is read before
`res.ok` is tested; `dflt` is the text used when the body carries no `error`. -/
def fetchFailure {α : Type} (error : α → Option String) (dflt : String)
    (resp : Fetched α) : Option String :=
  match resp with
  | .rejected m => some m
  | .unparsable _ m => some m
  | .json ok data => if !ok then some (orElse (error data) dflt) else none

/-- The message of the error of a failed request of which only `res.ok` is read. -/
def respondFailure (dflt : String) (resp : Responded) : Option String :=
  match resp with
  | .rejected m => some m
  | .response ok => if !ok then some dflt else none

/-- The message of the error with which `savePromptsData` fails: on its GET, or else
on its PUT. -/
def savePromptsFailure (get : Fetched Project) (put : Responded) : Option String :=
  match fetchFailure (fun _ => none) "获取项目信息失败" get with
  | some m => some m
  | none => respondFailure "保存失败" put

/-- The message of the error with which a project request makes `loadProject` throw:
`fetch` rejects or the body is not JSON; `none` when a JSON body arrives. -/
def refreshThrows (project : Fetched Project) : Option String :=
  match project with
  | .rejected m => some m
  | .unparsable _ m => some m
  | .json _ _ => none

/-- The status line shows `msg` with the red indicator, put there by a call of
`updateStatus(msg, 'red')`. -/
def ShowsError (msg : String) (s : AppState) : Prop :=
  s.statusText = msg ∧ s.statusDot = "w-2 h-2 rounded-full mr-2 bg-red-500" ∧
    Effect.updateStatus msg "red" ∈ s.log

/-! ### The requirements of the two buttons as the specification words them -/

/-- Shot position `k` (from 0) has a video: the entry `video_paths[k]` exists and
is a non-empty string. -/
def hasVideoAt (p : Project) (k : Nat) : Bool :=
  match p.video_paths with
  | some paths =>
    match paths[k]? with
    | some (some v) => v != ""
    | _ => false
  | none => false

/-- "All shots have a video" in the words of the specification: the storyboard has
`N ≥ 1` shots and every position `0..N-1` has a video. -/
def AllShotsHaveVideoSpec (p : Project) : Prop :=
  1 ≤ shotCount p ∧ ∀ k, k < shotCount p → hasVideoAt p k = true

/-- Shot number `i` (from 1) has at least one image, taken from `shot_images` or,
for a legacy project (one without `shot_images`), from `image_paths`. -/
def hasImageFor (p : Project) (i : Nat) : Bool :=
  match p.shot_images with
  | some shotImages =>
    match shotImages.lookup i with
    | some imgs => decide (imgs.length > 0)
    | none => false
  | none =>
    match p.image_paths with
    | some paths =>
      match paths[i - 1]? with
      | some (some v) => v != ""
      | _ => false
    | none => false

/-- "All shots have at least one image" in the words of the specification: the
storyboard has `N ≥ 1` shots and every shot number `1..N` has an image. -/
def AllShotsHaveImageSpec (p : Project) : Prop :=
  1 ≤ shotCount p ∧ ∀ k, k < shotCount p → hasImageFor p (k + 1) = true

/-! ### Sample pages and projects -/

/-- The page right after the script has loaded: every looked-up element exists, is
enabled and carries no class; no project is open; no timer runs; the browser
hands out timer handles from 1. -/
def initialState : AppState :=
  { mode := "topic"
    projectId := none
    currentTab := "input"
    isScriptEditing := false
    currentDetailId := none
    currentProject := none
    processingScenes := []
    pollingInterval := none
    timers := []
    nextTimer := 1
    dom := fun _ => some (Element.mk false [])
    viewClass := fun _ => []
    statusText := ""
    statusDot := ""
    createStatus := ""
    outScript := ""
    log := [] }

/-- A project in progress with one shot and nothing generated yet. -/
def sampleProject : Project :=
  { project_name := "demo"
    status := "in_progress"
    script := some "INT. ROOM"
    input_type := some "topic"
    input_content := some "a cat"
    characters := some ["cat"]
    scenes := some ["room"]
    storyboard := some (Storyboard.mk (some [Shot.mk 1]))
    image_prompts := some ["a cat in a room"]
    shot_images := none
    image_paths := none
    video_paths := none
    final_video := none
    current_step := some 5 }

/-- One shot whose video exists, followed by a stale empty entry in `video_paths`. -/
def staleVideoProject : Project :=
  { sampleProject with video_paths := some [some "data/p1/videos/shot_1.mp4", some ""] }

/-- A legacy project (no `shot_images`): one shot whose image exists, followed by a
stale empty entry in `image_paths`. -/
def staleImageProject : Project :=
  { sampleProject with image_paths := some [some "data/p1/images/shot_1.png", some ""] }

/-- The page with project `p1` open and cached, interaction disabled and task `t1`
being polled: the state in which `callStep` leaves the page when the backend
answers with a task id. -/
def pollingState : AppState :=
  startPolling "t1" none (setInteractionState false
    ((initialState.setProjectId (some "p1")).setCurrentProject (some sampleProject)))

/-- A tick that finds the task running and the project in progress. -/
def runningEnv : TickEnv :=
  { task := Fetched.json true (Task.mk "running" none (some 40))
    project := Fetched.json true sampleProject }

/-- A tick that finds the task completed while the project request that follows
fails on the network. -/
def lostRefreshEnv : TickEnv :=
  { task := Fetched.json true (Task.mk "completed" none (some 100))
    project := Fetched.rejected "Failed to fetch" }

/-- A tick that finds the task completed; the project request that follows succeeds. -/
def completedEnv : TickEnv :=
  { task := Fetched.json true (Task.mk "completed" none (some 100))
    project := Fetched.json true sampleProject }

/-- A tick that finds the task failed; the project request that follows succeeds. -/
def failedEnv : TickEnv :=
  { task := Fetched.json true (Task.mk "failed" (some "out of quota") none)
    project := Fetched.json true sampleProject }

/-- A tick that finds the task running while the project is reported completed. -/
def projectDoneEnv : TickEnv :=
  { task := Fetched.json true (Task.mk "running" none (some 90))
    project := Fetched.json true { sampleProject with status := "completed" } }

/-- A sample run: a task is polled, a tick finds it running, a second task replaces
it, a tick of the first task resumes in its terminal segment, a third task starts. -/
def sampleEvents : List PollEvent :=
  [PollEvent.startPolling "t1" none,
   PollEvent.tick "t1" none runningEnv,
   PollEvent.startPolling "t2" (some (OnComplete.releaseScene 0)),
   PollEvent.tickStop,
   PollEvent.loadProject (some "p1") false (Fetched.json true sampleProject),
   PollEvent.startPolling "t3" none]

/-- The page with project `p1` open and cached, and selected in the details dialog. -/
def openState : AppState :=
  { (initialState.setProjectId (some "p1")).setCurrentProject (some sampleProject) with
    currentDetailId := some "p1" }

/-- The backend refuses the step: a non-OK response with an error text. -/
def refusedStepEnv : StepEnv :=
  { post := Fetched.json false (StepData.mk none (some "no videos to merge") none)
    project := Fetched.json true sampleProject }

/-- A filled-in form and a backend that cannot be reached. -/
def unreachableCreateEnv : CreateEnv :=
  { form := CreateForm.mk "a cat" ""
    post := Fetched.rejected "Failed to fetch"
    script := Fetched.rejected "Failed to fetch" }

/-- One shot with its video and its image. -/
def readyProject : Project :=
  { sampleProject with
    shot_images := some [(1, ["data/p1/images/shot_1.png"])]
    video_paths := some [some "data/p1/videos/shot_1.mp4"] }

/-- The backend finishes the step at once: an OK response without task id, and the
project request that follows returns the sample project (one shot, no image, no
video). -/
def finishedStepEnv : StepEnv :=
  { post := Fetched.json true (StepData.mk none none none)
    project := Fetched.json true sampleProject }

/-- A project whose `current_step` is 3 (storyboard generation), without final
video. -/
def storyboardStepProject : Project :=
  { sampleProject with current_step := some 3 }

/-- A project in progress that already has a final video. -/
def mergedProject : Project :=
  { sampleProject with final_video := some "data/p1/final.mp4" }

/-- A project without `current_step`. -/
def noStepProject : Project :=
  { sampleProject with current_step := none }

/-! ## Part II — theorems -/

/-! ### `escapeHtml` -/

theorem replaceAll_append (c : Char) (r a b : List Char) :
    replaceAll c r (a ++ b) = replaceAll c r a ++ replaceAll c r b := by
  induction a with
  | nil => rfl
  | cons x xs ih =>
    by_cases h : x = c
    · simp [replaceAll, h, ih]
    · simp [replaceAll, h, ih]

theorem escapeList_cons (x : Char) (xs : List Char) :
    escapeList (x :: xs) = escapeChar x ++ escapeList xs := by
  unfold escapeList escapeChar
  by_cases h1 : x = '&'
  · subst h1
    simp only [replaceAll, if_true, replaceAll_append]
    rfl
  by_cases h2 : x = '<'
  · subst h2
    simp only [replaceAll, if_true, replaceAll_append]
    rfl
  by_cases h3 : x = '>'
  · subst h3
    simp only [replaceAll, if_true, replaceAll_append]
    rfl
  by_cases h4 : x = doubleQuote
  · subst h4
    simp only [replaceAll, if_true, replaceAll_append]
    rfl
  by_cases h5 : x = apostrophe
  · subst h5
    simp only [replaceAll, if_true, replaceAll_append]
    rfl
  simp [replaceAll, h1, h2, h3, h4, h5]

theorem escapeList_eq (l : List Char) : escapeList l = l.flatMap escapeChar := by
  induction l with
  | nil => rfl
  | cons x xs ih => rw [escapeList_cons, ih]; simp [List.flatMap_cons]

theorem escapeChar_clean (x c : Char) (h : c ∈ escapeChar x) :
    c ≠ '<' ∧ c ≠ '>' ∧ c ≠ doubleQuote ∧ c ≠ apostrophe := by
  unfold escapeChar at h
  split_ifs at h with h1 h2 h3 h4 h5
  all_goals first
    | (simp at h
       rcases h with h | h | h | h | h | h <;> subst h <;> decide)
    | (simp at h
       rcases h with h | h | h | h | h <;> subst h <;> decide)
    | (simp at h
       rcases h with h | h | h | h <;> subst h <;> decide)
    | (simp at h
       subst h
       exact ⟨h2, h3, h4, h5⟩)

/-- C6. For every string `s`, `escapeHtml s` is the concatenation of the
per-character map `escapeChar` over the characters of `s` (the five sequential
replacements never escape an entity a previous one produced); the output contains
none of `<`, `>`, the double quote and the apostrophe; and `escapeHtml "" = ""`. -/
theorem escapeHtml_spec (s : String) :
    escapeHtml s = ⟨s.data.flatMap escapeChar⟩ ∧
    (∀ c ∈ (escapeHtml s).data,
      c ≠ '<' ∧ c ≠ '>' ∧ c ≠ doubleQuote ∧ c ≠ apostrophe) ∧
    escapeHtml "" = "" := by
  have key : escapeHtml s = ⟨s.data.flatMap escapeChar⟩ := by
    unfold escapeHtml
    by_cases h : s = ""
    · subst h; rfl
    · rw [if_neg h]
      exact congrArg String.mk (escapeList_eq s.data)
  refine ⟨key, ?_, rfl⟩
  intro c hc
  rw [key] at hc
  obtain ⟨x, _, hx⟩ := List.mem_flatMap.mp hc
  exact escapeChar_clean x c hx

/-! ### `normalizePath` -/

theorem includesList_iff (pat l : List Char) :
    includesList pat l = true ↔ pat <:+: l := by
  induction l with
  | nil =>
    simp only [includesList, List.isPrefixOf_iff_prefix, List.prefix_nil, List.infix_nil]
  | cons c cs ih =>
    simp only [includesList, Bool.or_eq_true, List.isPrefixOf_iff_prefix, ih,
      List.infix_cons_iff]

theorem includes_iff (s pat : String) :
    includes s pat = true ↔ pat.data <:+: s.data :=
  includesList_iff pat.data s.data

theorem startsWith_iff (s pat : String) :
    startsWith s pat = true ↔ pat.data <+: s.data := by
  unfold startsWith
  exact List.isPrefixOf_iff_prefix

theorem hasTosMarker_iff (path : String) :
    hasTosMarker path = true ↔
      (".volces.com".data <:+: path.data ∨ ".bytepluses.com".data <:+: path.data ∨
        "tos-".data <:+: path.data) := by
  unfold hasTosMarker
  simp only [Bool.or_eq_true, includes_iff, or_assoc]

/-- What `indexOfFrom` returns: `-1` when there is no occurrence, otherwise the
offset `k` plus the position of the first occurrence. -/
theorem indexOfFrom_spec (pat : List Char) (l : List Char) (k : Nat) :
    (¬ pat <:+: l ∧ indexOfFrom pat l k = -1) ∨
    ∃ i, pat <+: l.drop i ∧ (∀ j, j < i → ¬ pat <+: l.drop j) ∧
      indexOfFrom pat l k = ((k + i : Nat) : Int) := by
  induction l generalizing k with
  | nil =>
    by_cases h : pat.isPrefixOf [] = true
    · right
      refine ⟨0, ?_, ?_, ?_⟩
      · simpa using List.isPrefixOf_iff_prefix.mp h
      · intro j hj; omega
      · simp [indexOfFrom, h]
    · left
      refine ⟨?_, ?_⟩
      · intro hin
        apply h
        rw [List.isPrefixOf_iff_prefix, List.prefix_nil]
        exact List.infix_nil.mp hin
      · simp [indexOfFrom, h]
  | cons c cs ih =>
    by_cases h : pat.isPrefixOf (c :: cs) = true
    · right
      refine ⟨0, ?_, ?_, ?_⟩
      · simpa using List.isPrefixOf_iff_prefix.mp h
      · intro j hj; omega
      · simp [indexOfFrom, h]
    · have hnp : ¬ pat <+: c :: cs := fun hp => h (List.isPrefixOf_iff_prefix.mpr hp)
      rcases ih (k + 1) with ⟨hno, heq⟩ | ⟨i, hpre, hfirst, heq⟩
      · left
        refine ⟨?_, ?_⟩
        · intro hin
          rcases List.infix_cons_iff.mp hin with hp | hi
          · exact hnp hp
          · exact hno hi
        · simp [indexOfFrom, h, heq]
      · right
        refine ⟨i + 1, ?_, ?_, ?_⟩
        · simpa using hpre
        · intro j hj
          cases j with
          | zero => simpa using hnp
          | succ j =>
            have := hfirst j (by omega)
            simpa using this
        · simp only [indexOfFrom, h]
          rw [if_neg (by simp), heq]
          congr 1
          omega

theorem encodeURIChar_length (c : Char) : 1 ≤ (encodeURIChar c).length := by
  unfold encodeURIChar
  split_ifs
  · simp
  · unfold utf8Bytes
    split_ifs <;> simp [List.flatMap_cons, percentByte]

theorem flatMap_length_ge (l : List Char) :
    l.length ≤ (l.flatMap encodeURIChar).length := by
  induction l with
  | nil => simp
  | cons x xs ih =>
    have := encodeURIChar_length x
    simp only [List.flatMap_cons, List.length_cons, List.length_append]
    omega

theorem proxyForm_length (path : String) :
    path.data.length + 19 ≤ (proxyForm path).data.length := by
  unfold proxyForm encodeURIComponent
  rw [String.data_append, List.length_append]
  have h := flatMap_length_ge path.data
  have h19 : "/api/proxy/tos?url=".data.length = 19 := by decide
  rw [h19]
  show path.data.length + 19 ≤ 19 + (path.data.flatMap encodeURIChar).length
  omega

theorem hasTosMarker_false (path : String)
    (h : ¬ (".volces.com".data <:+: path.data ∨ ".bytepluses.com".data <:+: path.data ∨
        "tos-".data <:+: path.data)) : hasTosMarker path = false := by
  cases hm : hasTosMarker path with
  | false => rfl
  | true => exact absurd ((hasTosMarker_iff path).mp hm) h

theorem startsWith_false (s pat : String) (h : ¬ pat.data <+: s.data) :
    startsWith s pat = false := by
  cases hs : startsWith s pat with
  | false => rfl
  | true => exact absurd ((startsWith_iff s pat).mp hs) h

theorem normalizePath_of_marker (path : String) (hne : path ≠ "")
    (h : ".volces.com".data <:+: path.data ∨ ".bytepluses.com".data <:+: path.data ∨
        "tos-".data <:+: path.data) : normalizePath path = proxyForm path := by
  unfold normalizePath
  rw [if_neg hne, if_pos ((hasTosMarker_iff path).mpr h)]

theorem isTosUrl_marker (path : String) (h : isTosUrl path = true) :
    path ≠ "" ∧ (".volces.com".data <:+: path.data ∨ ".bytepluses.com".data <:+: path.data) := by
  unfold isTosUrl at h
  cases hh : urlHost path with
  | none => rw [hh] at h; exact absurd h (by simp)
  | some host =>
    rw [hh] at h
    have hhost : host <:+: path.data := by
      unfold urlHost at hh
      simp only at hh
      split_ifs at hh
      · cases hh
        exact (List.takeWhile_prefix _).isInfix.trans (List.drop_suffix _ _).isInfix
      · cases hh
        exact (List.takeWhile_prefix _).isInfix.trans (List.drop_suffix _ _).isInfix
    constructor
    · intro he
      subst he
      simp [urlHost, startsWith] at hh
    · simp only [Bool.or_eq_true, List.isSuffixOf_iff_suffix] at h
      rcases h with h | h
      · exact Or.inl (h.isInfix.trans hhost)
      · exact Or.inr (h.isInfix.trans hhost)

/-- Without a marker the result is at most one character longer than the path. -/
theorem normalizePath_length_le (path : String) (h : hasTosMarker path = false) :
    (normalizePath path).data.length ≤ path.data.length + 1 := by
  unfold normalizePath
  by_cases hne : path = ""
  · subst hne; decide
  · rw [if_neg hne, h]
    simp only [Bool.false_eq_true, if_false]
    split_ifs
    · omega
    · rw [String.data_append, List.length_append]
      have h1 : "/".data.length = 1 := rfl
      have h2 : (substring path (indexOf path "data/").toNat).data.length ≤ path.data.length := by
        simp [substring]
      omega
    · omega
    · rw [String.data_append, List.length_append]
      have h1 : "/".data.length = 1 := rfl
      omega

/-- C7, counterexample.  The local path `data/photos-1.png` is not a TOS URL and is
rewritten to the proxy form; the URL on the host `b.tos-cn-beijing.ivolces.com`
is on neither a `.volces.com` nor a `.bytepluses.com` host and is rewritten too. -/
theorem normalizePath_proxy_counterexample :
    ¬ (normalizePath "data/photos-1.png" = proxyForm "data/photos-1.png" ↔
        isTosUrl "data/photos-1.png" = true) ∧
    ¬ (normalizePath "https://b.tos-cn-beijing.ivolces.com/a.png" =
          proxyForm "https://b.tos-cn-beijing.ivolces.com/a.png" ↔
        isTosUrl "https://b.tos-cn-beijing.ivolces.com/a.png" = true) := by
  decide

/-- C7, amended.  `normalizePath` returns the proxy form for every http(s) URL that
contains one of the markers `.volces.com`, `.bytepluses.com`, `tos-`, in particular
for every TOS URL in the sense of the specification, and it never returns the proxy
form for a path that contains none of the three markers. -/
theorem normalizePath_proxy (path : String) :
    (("http://".data <+: path.data ∨ "https://".data <+: path.data) →
      (".volces.com".data <:+: path.data ∨ ".bytepluses.com".data <:+: path.data ∨
        "tos-".data <:+: path.data) →
      normalizePath path = proxyForm path) ∧
    (isTosUrl path = true → normalizePath path = proxyForm path) ∧
    (¬ (".volces.com".data <:+: path.data ∨ ".bytepluses.com".data <:+: path.data ∨
        "tos-".data <:+: path.data) →
      normalizePath path ≠ proxyForm path) := by
  refine ⟨?_, ?_, ?_⟩
  · intro hurl hm
    apply normalizePath_of_marker path _ hm
    intro he
    subst he
    rcases hurl with h | h
    · exact absurd h (by decide)
    · exact absurd h (by decide)
  · intro ht
    obtain ⟨hne, hm⟩ := isTosUrl_marker path ht
    apply normalizePath_of_marker path hne
    rcases hm with h | h
    · exact Or.inl h
    · exact Or.inr (Or.inl h)
  · intro hno heq
    have h1 := normalizePath_length_le path (hasTosMarker_false path hno)
    have h2 := proxyForm_length path
    rw [heq] at h1
    omega

theorem normalizePath_proxy_witness :
    normalizePath "https://b.tos-cn-beijing.volces.com/a b.png" =
        proxyForm "https://b.tos-cn-beijing.volces.com/a b.png" ∧
    isTosUrl "https://b.tos-cn-beijing.volces.com/a b.png" = true ∧
    normalizePath "out/data/p1/a.png" ≠ proxyForm "out/data/p1/a.png" :=
  ⟨(normalizePath_proxy "https://b.tos-cn-beijing.volces.com/a b.png").1
      (Or.inr (by decide)) (Or.inl (by decide)),
    by decide,
    (normalizePath_proxy "out/data/p1/a.png").2.2 (by decide)⟩

/-- C8. For a path that contains `data/`, starts neither with `http` nor with
`blob:` and contains no TOS marker, `normalizePath` returns `/` followed by the
suffix of the path that begins at the first occurrence of `data/`; for every other
non-empty path without marker and without those two prefixes it returns the path
itself when it starts with `/` and `/` followed by the path otherwise; for the
empty path it returns the empty string. -/
theorem normalizePath_local (path : String) :
    (¬ "http".data <+: path.data → ¬ "blob:".data <+: path.data →
      ¬ (".volces.com".data <:+: path.data ∨ ".bytepluses.com".data <:+: path.data ∨
        "tos-".data <:+: path.data) →
      "data/".data <:+: path.data →
      ∃ i rest, path.data.drop i = "data/".data ++ rest ∧
        (∀ j, j < i → ¬ "data/".data <+: path.data.drop j) ∧
        normalizePath path = "/" ++ (⟨path.data.drop i⟩ : String) ∧
        normalizePath path = "/data/" ++ (⟨rest⟩ : String)) ∧
    (path ≠ "" → ¬ "http".data <+: path.data → ¬ "blob:".data <+: path.data →
      ¬ (".volces.com".data <:+: path.data ∨ ".bytepluses.com".data <:+: path.data ∨
        "tos-".data <:+: path.data) →
      ¬ "data/".data <:+: path.data →
      ("/".data <+: path.data → normalizePath path = path) ∧
      (¬ "/".data <+: path.data → normalizePath path = "/" ++ path)) ∧
    normalizePath "" = "" := by
  refine ⟨?_, ?_, by decide⟩
  · intro hhttp hblob hmark hdata
    have hne : path ≠ "" := by
      intro he
      subst he
      exact absurd hdata (by decide)
    rcases indexOfFrom_spec "data/".data path.data 0 with ⟨hno, _⟩ | ⟨i, hpre, hfirst, heq⟩
    · exact absurd hdata hno
    · obtain ⟨rest, hrest⟩ := hpre
      have hidx : indexOf path "data/" = (i : Int) := by
        unfold indexOf
        rw [heq]
        simp
      have hres : normalizePath path = "/" ++ (⟨path.data.drop i⟩ : String) := by
        unfold normalizePath
        rw [if_neg hne, hasTosMarker_false path hmark, startsWith_false path "http" hhttp,
          startsWith_false path "blob:" hblob]
        simp only [Bool.false_eq_true, if_false, Bool.or_self, hidx]
        rw [if_pos (by omega)]
        simp [substring]
      refine ⟨i, rest, hrest.symm, hfirst, hres, ?_⟩
      rw [hres, ← hrest]
      apply String.ext
      simp [String.data_append]
  · intro hne hhttp hblob hmark hdata
    have hidx : indexOf path "data/" = -1 := by
      rcases indexOfFrom_spec "data/".data path.data 0 with ⟨_, heq⟩ | ⟨i, hpre, _, _⟩
      · exact heq
      · exact absurd (hpre.isInfix.trans (List.drop_suffix i path.data).isInfix) hdata
    have hres : normalizePath path = if startsWith path "/" then path else "/" ++ path := by
      unfold normalizePath
      rw [if_neg hne, hasTosMarker_false path hmark, startsWith_false path "http" hhttp,
        startsWith_false path "blob:" hblob]
      simp only [Bool.false_eq_true, if_false, Bool.or_self, hidx]
      simp
    constructor
    · intro hs
      rw [hres, if_pos ((startsWith_iff path "/").mpr hs)]
    · intro hs
      rw [hres, startsWith_false path "/" hs]
      simp

theorem normalizePath_local_witness :
    (∃ i rest, "out/data/p1/data/a.png".data.drop i = "data/".data ++ rest ∧
        (∀ j, j < i → ¬ "data/".data <+: "out/data/p1/data/a.png".data.drop j) ∧
        normalizePath "out/data/p1/data/a.png" =
          "/" ++ (⟨"out/data/p1/data/a.png".data.drop i⟩ : String) ∧
        normalizePath "out/data/p1/data/a.png" = "/data/" ++ (⟨rest⟩ : String)) ∧
    normalizePath "/static/a.png" = "/static/a.png" ∧
    normalizePath "static/a.png" = "/" ++ "static/a.png" :=
  ⟨(normalizePath_local "out/data/p1/data/a.png").1 (by decide) (by decide) (by decide)
      (by decide),
    ((normalizePath_local "/static/a.png").2.1 (by decide) (by decide) (by decide) (by decide)
      (by decide)).1 (by decide),
    ((normalizePath_local "static/a.png").2.1 (by decide) (by decide) (by decide) (by decide)
      (by decide)).2 (by decide)⟩

/-! ### `updateNextButtonState` -/

theorem withElem_dom (s : AppState) (id j : ElemId) (f : Element → Element) :
    (s.withElem id f).dom j = if j = id then (s.dom id).map f else s.dom j := by
  unfold AppState.withElem
  cases h : s.dom id with
  | none =>
    by_cases hj : j = id
    · subst hj; simp [h]
    · simp [hj]
  | some el =>
    by_cases hj : j = id
    · subst hj; simp
    · simp [hj]

theorem updateNextButtonState_btnMerge (p : Project) (s : AppState) :
    (updateNextButtonState (some p) s).dom .btnMerge =
      (s.dom .btnMerge).map
        (enableWhen (allShotsHaveVideos p) ["opacity-50", "cursor-not-allowed"]) := by
  simp [updateNextButtonState, withElem_dom]

theorem updateNextButtonState_btnNextToVideos (p : Project) (s : AppState) :
    (updateNextButtonState (some p) s).dom .btnNextToVideos =
      (s.dom .btnNextToVideos).map
        (enableWhen (allShotsHaveImages p) ["opacity-50", "cursor-not-allowed"]) := by
  simp [updateNextButtonState, withElem_dom]

theorem hasShots_iff (p : Project) : hasShots p = true ↔ 1 ≤ shotCount p := by
  unfold hasShots shotCount
  cases p.storyboard with
  | none => simp
  | some sb =>
    obtain ⟨shots⟩ := sb
    cases shots with
    | none => simp
    | some shots => simp only [decide_eq_true_eq]; omega

theorem pathsComplete_iff (paths : List (Option String)) (n : Nat) :
    pathsComplete paths n = true ↔
      n ≤ paths.length ∧ ∀ v ∈ paths, ∃ t, v = some t ∧ t ≠ "" := by
  unfold pathsComplete
  simp only [Bool.and_eq_true, decide_eq_true_eq, List.all_eq_true, ge_iff_le]
  constructor
  · rintro ⟨h1, h2⟩
    refine ⟨h1, fun v hv => ?_⟩
    have := h2 v hv
    cases v with
    | none => simp [truthy] at this
    | some t => exact ⟨t, rfl, by simpa [truthy] using this⟩
  · rintro ⟨h1, h2⟩
    refine ⟨h1, fun v hv => ?_⟩
    obtain ⟨t, rfl, ht⟩ := h2 v hv
    simpa [truthy] using ht

theorem allShotsHaveVideos_iff (p : Project) :
    allShotsHaveVideos p = true ↔
      1 ≤ shotCount p ∧ ∃ paths, p.video_paths = some paths ∧
        shotCount p ≤ paths.length ∧ ∀ v ∈ paths, ∃ t, v = some t ∧ t ≠ "" := by
  unfold allShotsHaveVideos
  cases hv : p.video_paths with
  | none => simp
  | some paths =>
    by_cases hs : hasShots p = true
    · simp [hs, pathsComplete_iff, (hasShots_iff p).mp hs]
    · have : ¬ 1 ≤ shotCount p := fun h => hs ((hasShots_iff p).mpr h)
      simp [hs, this]

theorem enableWhen_disabled (ok : Bool) (classes : List String) (o : Option Element) :
    (o.map (enableWhen ok classes)).map Element.disabled = o.map (fun _ => !ok) := by
  cases o <;> simp [enableWhen]

/-- With one shot whose video exists and a second, empty entry in `video_paths`,
every shot position has a video, yet the merge button is left disabled. -/
theorem merge_button_counterexample :
    ¬ ((((updateNextButtonState (some staleVideoProject) initialState).dom .btnMerge).map
          Element.disabled = some false) ↔ AllShotsHaveVideoSpec staleVideoProject) := by
  intro h
  have hspec : AllShotsHaveVideoSpec staleVideoProject := by
    refine ⟨by decide, ?_⟩
    intro k hk
    have hk1 : k = 0 := by
      have : shotCount staleVideoProject = 1 := by decide
      omega
    subst hk1
    decide
  have hdis := h.mpr hspec
  rw [updateNextButtonState_btnMerge, enableWhen_disabled] at hdis
  exact absurd hdis (by decide)

/-- The test the code computes for the merge button.  When the button exists, after
`updateNextButtonState(p)` it is enabled if and only if the storyboard has `N ≥ 1`
shots, `video_paths` has at least `N` entries and every entry of `video_paths`
(those beyond `N` included) is a non-empty string; in that case every shot position
`0..N-1` has a video. -/
theorem merge_button (p : Project) (s : AppState) (el : Element)
    (hbtn : s.dom .btnMerge = some el) :
    ((((updateNextButtonState (some p) s).dom .btnMerge).map Element.disabled = some false) ↔
      (1 ≤ shotCount p ∧ ∃ paths, p.video_paths = some paths ∧
        shotCount p ≤ paths.length ∧ ∀ v ∈ paths, ∃ t, v = some t ∧ t ≠ "")) ∧
    ((((updateNextButtonState (some p) s).dom .btnMerge).map Element.disabled = some false) →
      AllShotsHaveVideoSpec p) := by
  have hiff : (((updateNextButtonState (some p) s).dom .btnMerge).map Element.disabled
      = some false) ↔ allShotsHaveVideos p = true := by
    rw [updateNextButtonState_btnMerge, enableWhen_disabled, hbtn]
    cases allShotsHaveVideos p <;> simp
  refine ⟨hiff.trans (allShotsHaveVideos_iff p), ?_⟩
  intro h
  obtain ⟨hN, paths, hp, hlen, hall⟩ := (allShotsHaveVideos_iff p).mp (hiff.mp h)
  refine ⟨hN, fun k hk => ?_⟩
  have hk2 : k < paths.length := by omega
  obtain ⟨t, ht, hne⟩ := hall (paths[k]) (List.getElem_mem hk2)
  unfold hasVideoAt
  rw [hp]
  simp only [List.getElem?_eq_getElem hk2, ht]
  simpa using hne

theorem merge_button_witness :
    ((updateNextButtonState (some readyProject) initialState).dom .btnMerge).map
        Element.disabled = some false ∧
    AllShotsHaveVideoSpec readyProject :=
  ⟨((merge_button readyProject initialState (Element.mk false []) rfl).1).mpr
      ⟨by decide, [some "data/p1/videos/shot_1.mp4"], rfl, by decide, by decide⟩,
    (merge_button readyProject initialState (Element.mk false []) rfl).2 (by decide)⟩

theorem staleVideoProject_spec : AllShotsHaveVideoSpec staleVideoProject := by
  refine ⟨by decide, ?_⟩
  intro k hk
  have hk1 : k = 0 := by
    have : shotCount staleVideoProject = 1 := by decide
    omega
  subst hk1
  decide

/-- C9, the failing case.  Whenever every shot position `0..N-1` of the storyboard has
a video but `video_paths` also holds an entry that is `null` or empty (a stale entry,
necessarily beyond the last shot), `updateNextButtonState(p)` leaves the existing
merge button disabled, because `video_paths.every(path => !!path)` runs over the
whole list: the button is not enabled although all shots have a video. -/
theorem merge_button_stale_entry (p : Project) (s : AppState) (el : Element)
    (paths : List (Option String)) (hbtn : s.dom .btnMerge = some el)
    (hspec : AllShotsHaveVideoSpec p) (hp : p.video_paths = some paths)
    (hstale : ∃ v ∈ paths, truthy v = false) :
    ((updateNextButtonState (some p) s).dom .btnMerge).map Element.disabled = some true ∧
    ¬ ((((updateNextButtonState (some p) s).dom .btnMerge).map Element.disabled
        = some false) ↔ AllShotsHaveVideoSpec p) := by
  have hfalse : allShotsHaveVideos p = false := by
    cases hv : allShotsHaveVideos p with
    | false => rfl
    | true =>
      obtain ⟨_, paths2, hp2, _, hall⟩ := (allShotsHaveVideos_iff p).mp hv
      rw [hp] at hp2
      cases hp2
      obtain ⟨v, hv1, hv2⟩ := hstale
      obtain ⟨t, rfl, ht⟩ := hall v hv1
      simp [truthy, ht] at hv2
  have hdis : ((updateNextButtonState (some p) s).dom .btnMerge).map Element.disabled
      = some true := by
    rw [updateNextButtonState_btnMerge, enableWhen_disabled, hbtn, hfalse]
    rfl
  refine ⟨hdis, ?_⟩
  intro h
  have := h.mpr hspec
  rw [hdis] at this
  exact absurd this (by simp)

theorem merge_button_stale_entry_witness :
    AllShotsHaveVideoSpec staleVideoProject ∧
    ((updateNextButtonState (some staleVideoProject) initialState).dom .btnMerge).map
      Element.disabled = some true ∧
    ¬ ((((updateNextButtonState (some staleVideoProject) initialState).dom .btnMerge).map
        Element.disabled = some false) ↔ AllShotsHaveVideoSpec staleVideoProject) :=
  ⟨staleVideoProject_spec,
    merge_button_stale_entry staleVideoProject initialState (Element.mk false [])
      [some "data/p1/videos/shot_1.mp4", some ""] rfl staleVideoProject_spec rfl
      ⟨some "", by decide, by decide⟩⟩

/-- The loop returns `true` exactly when no shot number it visits lacks images. -/
theorem shotImagesLoop_iff (si : List (Nat × List String)) (n : Nat) (fuel i : Nat) :
    shotImagesLoop si n fuel i = true ↔
      ∀ j, i ≤ j → j ≤ n → j < i + fuel → shotLacksImages si j = false := by
  induction fuel generalizing i with
  | zero =>
    simp only [shotImagesLoop, true_iff]
    intro j h1 _ h3
    omega
  | succ fuel ih =>
    unfold shotImagesLoop
    by_cases hi : i ≤ n
    · rw [if_pos hi]
      cases hl : shotLacksImages si i with
      | true =>
        simp only [if_true, Bool.false_eq_true, false_iff]
        intro h
        have := h i (le_refl i) hi (by omega)
        rw [hl] at this
        exact absurd this (by simp)
      | false =>
        simp only [Bool.false_eq_true, if_false]
        rw [ih (i + 1)]
        constructor
        · intro h j h1 h2 h3
          by_cases hj : j = i
          · subst hj; exact hl
          · exact h j (by omega) h2 (by omega)
        · intro h j h1 h2 h3
          exact h j (by omega) h2 (by omega)
    · rw [if_neg hi]
      simp only [true_iff]
      intro j h1 h2 _
      omega

theorem shotLacksImages_false_iff (si : List (Nat × List String)) (i : Nat) :
    shotLacksImages si i = false ↔ ∃ imgs, si.lookup i = some imgs ∧ imgs ≠ [] := by
  unfold shotLacksImages
  cases si.lookup i with
  | none => simp
  | some imgs => cases imgs <;> simp

theorem allShotsHaveImages_iff (p : Project) :
    allShotsHaveImages p = true ↔
      1 ≤ shotCount p ∧
      ((∃ si, p.shot_images = some si ∧
          ∀ i, 1 ≤ i → i ≤ shotCount p → ∃ imgs, si.lookup i = some imgs ∧ imgs ≠ []) ∨
       (p.shot_images = none ∧ ∃ paths, p.image_paths = some paths ∧
          shotCount p ≤ paths.length ∧ ∀ v ∈ paths, ∃ t, v = some t ∧ t ≠ "")) := by
  unfold allShotsHaveImages
  by_cases hs : hasShots p = true
  · have hN := (hasShots_iff p).mp hs
    cases hsi : p.shot_images with
    | some si =>
      simp only [hs, Option.isSome_some, Bool.and_self, if_true, shotImagesLoop_iff,
        shotLacksImages_false_iff, hN, true_and]
      constructor
      · intro h
        exact Or.inl ⟨si, rfl, fun i h1 h2 => h i h1 h2 (by omega)⟩
      · rintro (⟨si2, h2, h⟩ | ⟨h, _⟩)
        · cases h2
          exact fun j h1 h2 _ => h j h1 h2
        · exact absurd h (by simp)
    | none =>
      cases hip : p.image_paths with
      | none => simp [hs]
      | some paths => simp [hs, pathsComplete_iff, hN]
  · have hN : ¬ 1 ≤ shotCount p := fun h => hs ((hasShots_iff p).mpr h)
    simp [hs, hN]

/-- In a legacy project with one shot whose image exists and a second, empty entry
in `image_paths`, every shot number has an image, yet the images-to-videos button
is left disabled. -/
theorem videos_button_counterexample :
    ¬ ((((updateNextButtonState (some staleImageProject) initialState).dom
          .btnNextToVideos).map Element.disabled = some false) ↔
        AllShotsHaveImageSpec staleImageProject) := by
  intro h
  have hspec : AllShotsHaveImageSpec staleImageProject := by
    refine ⟨by decide, ?_⟩
    intro k hk
    have hk1 : k = 0 := by
      have : shotCount staleImageProject = 1 := by decide
      omega
    subst hk1
    decide
  have hdis := h.mpr hspec
  rw [updateNextButtonState_btnNextToVideos, enableWhen_disabled] at hdis
  exact absurd hdis (by decide)

/-- The test the code computes for the images-to-videos button.  When the button
exists, after `updateNextButtonState(p)` it is enabled if and only if the storyboard
has `N ≥ 1`
shots and either `shot_images` is present and gives every shot number `1..N` a
non-empty list of images, or `shot_images` is absent (legacy project), `image_paths`
has at least `N` entries and every entry of `image_paths` (those beyond `N`
included) is a non-empty string; in that case every shot number `1..N` has an
image. -/
theorem videos_button (p : Project) (s : AppState) (el : Element)
    (hbtn : s.dom .btnNextToVideos = some el) :
    ((((updateNextButtonState (some p) s).dom .btnNextToVideos).map Element.disabled
        = some false) ↔
      (1 ≤ shotCount p ∧
        ((∃ si, p.shot_images = some si ∧
            ∀ i, 1 ≤ i → i ≤ shotCount p → ∃ imgs, si.lookup i = some imgs ∧ imgs ≠ []) ∨
         (p.shot_images = none ∧ ∃ paths, p.image_paths = some paths ∧
            shotCount p ≤ paths.length ∧ ∀ v ∈ paths, ∃ t, v = some t ∧ t ≠ "")))) ∧
    ((((updateNextButtonState (some p) s).dom .btnNextToVideos).map Element.disabled
        = some false) → AllShotsHaveImageSpec p) := by
  have hiff : (((updateNextButtonState (some p) s).dom .btnNextToVideos).map Element.disabled
      = some false) ↔ allShotsHaveImages p = true := by
    rw [updateNextButtonState_btnNextToVideos, enableWhen_disabled, hbtn]
    cases allShotsHaveImages p <;> simp
  refine ⟨hiff.trans (allShotsHaveImages_iff p), ?_⟩
  intro h
  obtain ⟨hN, hcase⟩ := (allShotsHaveImages_iff p).mp (hiff.mp h)
  refine ⟨hN, fun k hk => ?_⟩
  unfold hasImageFor
  rcases hcase with ⟨si, hsi, hall⟩ | ⟨hsi, paths, hp, hlen, hall⟩
  · obtain ⟨imgs, himgs, hne⟩ := hall (k + 1) (by omega) (by omega)
    rw [hsi]
    simp only [himgs]
    cases imgs with
    | nil => exact absurd rfl hne
    | cons a l => simp
  · have hk2 : k < paths.length := by omega
    obtain ⟨t, ht, hne⟩ := hall (paths[k]) (List.getElem_mem hk2)
    rw [hsi, hp]
    simp only [Nat.add_sub_cancel, List.getElem?_eq_getElem hk2, ht]
    simpa using hne

theorem videos_button_witness :
    ((updateNextButtonState (some readyProject) initialState).dom .btnNextToVideos).map
        Element.disabled = some false ∧
    AllShotsHaveImageSpec readyProject :=
  ⟨((videos_button readyProject initialState (Element.mk false []) rfl).1).mpr
      ⟨by decide, Or.inl ⟨[(1, ["data/p1/images/shot_1.png"])], rfl, by
        intro i h1 h2
        have h3 : shotCount readyProject = 1 := by decide
        have hi : i = 1 := by omega
        subst hi
        exact ⟨["data/p1/images/shot_1.png"], by decide, by decide⟩⟩⟩,
    (videos_button readyProject initialState (Element.mk false []) rfl).2 (by decide)⟩

theorem staleImageProject_spec : AllShotsHaveImageSpec staleImageProject := by
  refine ⟨by decide, ?_⟩
  intro k hk
  have hk1 : k = 0 := by
    have : shotCount staleImageProject = 1 := by decide
    omega
  subst hk1
  decide

/-- C10, the failing case.  In a legacy project (no `shot_images`), whenever every shot
number `1..N` has an image in `image_paths` but `image_paths` also holds an entry
that is `null` or empty (a stale entry, necessarily beyond the last shot),
`updateNextButtonState(p)` leaves the existing images-to-videos button disabled,
because `image_paths.every(path => !!path)` runs over the whole list: the button is
not enabled although all shots have an image. -/
theorem videos_button_stale_entry (p : Project) (s : AppState) (el : Element)
    (paths : List (Option String)) (hbtn : s.dom .btnNextToVideos = some el)
    (hspec : AllShotsHaveImageSpec p) (hsi : p.shot_images = none)
    (hp : p.image_paths = some paths) (hstale : ∃ v ∈ paths, truthy v = false) :
    ((updateNextButtonState (some p) s).dom .btnNextToVideos).map Element.disabled
      = some true ∧
    ¬ ((((updateNextButtonState (some p) s).dom .btnNextToVideos).map Element.disabled
        = some false) ↔ AllShotsHaveImageSpec p) := by
  have hfalse : allShotsHaveImages p = false := by
    cases hv : allShotsHaveImages p with
    | false => rfl
    | true =>
      obtain ⟨_, hcase⟩ := (allShotsHaveImages_iff p).mp hv
      rcases hcase with ⟨si, hsi2, _⟩ | ⟨_, paths2, hp2, _, hall⟩
      · rw [hsi] at hsi2
        exact absurd hsi2 (by simp)
      · rw [hp] at hp2
        cases hp2
        obtain ⟨v, hv1, hv2⟩ := hstale
        obtain ⟨t, rfl, ht⟩ := hall v hv1
        simp [truthy, ht] at hv2
  have hdis : ((updateNextButtonState (some p) s).dom .btnNextToVideos).map Element.disabled
      = some true := by
    rw [updateNextButtonState_btnNextToVideos, enableWhen_disabled, hbtn, hfalse]
    rfl
  refine ⟨hdis, ?_⟩
  intro h
  have := h.mpr hspec
  rw [hdis] at this
  exact absurd this (by simp)

theorem videos_button_stale_entry_witness :
    AllShotsHaveImageSpec staleImageProject ∧
    ((updateNextButtonState (some staleImageProject) initialState).dom
      .btnNextToVideos).map Element.disabled = some true ∧
    ¬ ((((updateNextButtonState (some staleImageProject) initialState).dom
        .btnNextToVideos).map Element.disabled = some false) ↔
      AllShotsHaveImageSpec staleImageProject) :=
  ⟨staleImageProject_spec,
    videos_button_stale_entry staleImageProject initialState (Element.mk false [])
      [some "data/p1/images/shot_1.png", some ""] rfl staleImageProject_spec rfl rfl
      ⟨some "", by decide, by decide⟩⟩

/-! ### Polling: the timer invariant -/

@[simp] theorem emit_timerView (s : AppState) (e : Effect) :
    timerView (s.emit e) = timerView s := rfl

@[simp] theorem withElem_timerView (s : AppState) (id : ElemId) (f : Element → Element) :
    timerView (s.withElem id f) = timerView s := by
  unfold AppState.withElem
  cases s.dom id <;> rfl

@[simp] theorem setViewClass_timerView (s : AppState) (id : String) (cl : List String) :
    timerView (s.setViewClass id cl) = timerView s := rfl

@[simp] theorem updateStatus_timerView (m c : String) (s : AppState) :
    timerView (updateStatus m c s) = timerView s := rfl

@[simp] theorem setInteractionState_timerView (b : Bool) (s : AppState) :
    timerView (setInteractionState b s) = timerView s := by
  simp only [setInteractionState, interactionButtons, List.foldl, emit_timerView,
    withElem_timerView]

@[simp] theorem setLoading_timerView (step : String) (b : Bool) (s : AppState) :
    timerView (setLoading step b s) = timerView s := by
  unfold setLoading
  cases loadingElem step <;> simp

@[simp] theorem hideAllLoading_timerView (s : AppState) :
    timerView (hideAllLoading s) = timerView s := by
  simp only [hideAllLoading, List.foldl, setLoading_timerView]

@[simp] theorem switchTab_timerView (tab : String) (s : AppState) :
    timerView (switchTab tab s) = timerView s := by
  unfold switchTab
  simp only [views, List.map, List.foldl]
  split <;> simp only [setViewClass_timerView] <;> rfl

@[simp] theorem updateNextButtonState_timerView (p : Option Project) (s : AppState) :
    timerView (updateNextButtonState p s) = timerView s := by
  cases p <;> simp [updateNextButtonState]

@[simp] theorem renderProject_timerView (p : Project) (s : AppState) :
    timerView (renderProject p s) = timerView s := by
  simp [renderProject]

@[simp] theorem settleLoading_timerView (p : Project) (s : AppState) :
    timerView (settleLoading p s) = timerView s := by
  unfold settleLoading
  simp only []
  repeat' split
  all_goals simp

@[simp] theorem resumeTab_timerView (p : Project) (b : Bool) (s : AppState) :
    timerView (resumeTab p b s) = timerView s := by
  unfold resumeTab
  repeat' split
  all_goals simp

@[simp] theorem runOnComplete_timerView (cb : Option OnComplete) (s : AppState) :
    timerView (runOnComplete cb s) = timerView s := by
  unfold runOnComplete
  split <;> rfl

@[simp] theorem loadProjectBegin_timerView (id : Option String) (b : Bool) (s : AppState) :
    timerView (loadProjectBegin id b s) = timerView s := rfl

@[simp] theorem setCurrentProject_timerView (s : AppState) (p : Option Project) :
    timerView (s.setCurrentProject p) = timerView s := rfl

@[simp] theorem setOutScript_timerView (s : AppState) (t : String) :
    timerView (s.setOutScript t) = timerView s := rfl

@[simp] theorem setProjectId_timerView (s : AppState) (id : Option String) :
    timerView (s.setProjectId id) = timerView s := rfl

@[simp] theorem showProject_timerView (p : Project) (s : AppState) :
    timerView (showProject p s) = timerView s := by
  simp [showProject]

theorem stopPolling_timerView (s : AppState) :
    timerView (stopPolling s) =
      (none, (match s.pollingInterval with
              | some h => s.timers.filter (fun t => t != h)
              | none => s.timers), s.nextTimer) := by
  unfold stopPolling clearInterval
  cases s.pollingInterval <;> rfl

theorem stopPolling_inv (s : AppState) (h : TimerInv s) : TimerInv (stopPolling s) := by
  obtain ⟨h1, h2, h3, _⟩ := h
  unfold TimerInv
  rw [stopPolling_timerView]
  simp only [timerView] at h1 h2 h3
  refine ⟨?_, ?_, h3, by simp⟩
  · intro t ht
    cases hp : s.pollingInterval with
    | none =>
      rw [hp] at ht
      have := h1 t ht
      rw [hp] at this
      exact absurd this (by simp)
    | some k =>
      rw [hp] at ht
      simp only [List.mem_filter] at ht
      have := h1 t ht.1
      rw [hp] at this
      cases this
      simp at ht
  · show (match s.pollingInterval with
          | some h => s.timers.filter (fun t => t != h)
          | none => s.timers).length ≤ 1
    cases s.pollingInterval with
    | none => exact h2
    | some k => exact le_trans (List.length_filter_le _ _) h2

/-- After `stopPolling` in a state satisfying the invariant no timer is active. -/
theorem stopPolling_clears (s : AppState) (h : TimerInv s) :
    (stopPolling s).timers = [] ∧ (stopPolling s).pollingInterval = none := by
  have hv := stopPolling_timerView s
  simp only [timerView, Prod.mk.injEq] at hv
  obtain ⟨hp, ht, _⟩ := hv
  refine ⟨?_, hp⟩
  rw [ht]
  obtain ⟨h1, _, _, _⟩ := h
  simp only [timerView] at h1
  cases hpi : s.pollingInterval with
  | none =>
    simp only
    cases htm : s.timers with
    | nil => rfl
    | cons t ts =>
      have := h1 t (by rw [htm]; simp)
      rw [hpi] at this
      exact absurd this (by simp)
  | some k =>
    simp only
    apply List.filter_eq_nil_iff.mpr
    intro t ht
    have := h1 t ht
    rw [hpi] at this
    cases this
    simp

/-- After `startPolling` in a state satisfying the invariant exactly the new handle
is active, and it is the tracked one. -/
theorem startPolling_timers (taskId : String) (cb : Option OnComplete) (s : AppState)
    (h : TimerInv s) :
    (startPolling taskId cb s).timers = [s.nextTimer] ∧
    (startPolling taskId cb s).pollingInterval = some s.nextTimer ∧
    (startPolling taskId cb s).nextTimer = s.nextTimer + 1 := by
  obtain ⟨h1, _, _, h4⟩ := h
  simp only [timerView] at h1 h4
  unfold startPolling
  cases hpi : s.pollingInterval with
  | none =>
    have ht : s.timers = [] := by
      cases htm : s.timers with
      | nil => rfl
      | cons t ts =>
        have := h1 t (by rw [htm]; simp)
        rw [hpi] at this
        exact absurd this (by simp)
    simp [truthyHandle, AppState.emit, ht]
  | some k =>
    have hk : 1 ≤ k := (h4 k hpi).1
    have hk0 : (k != 0) = true := by simp; omega
    have hf : s.timers.filter (fun t => t != k) = [] := by
      apply List.filter_eq_nil_iff.mpr
      intro t ht
      have := h1 t ht
      rw [hpi] at this
      cases this
      simp
    simp [truthyHandle, hk0, clearInterval, AppState.emit, hf]

theorem startPolling_inv (taskId : String) (cb : Option OnComplete) (s : AppState)
    (h : TimerInv s) : TimerInv (startPolling taskId cb s) := by
  obtain ⟨ht, hp, hn⟩ := startPolling_timers taskId cb s h
  obtain ⟨_, _, h3, _⟩ := h
  simp only [timerView] at h3
  unfold TimerInv TimerInvOn timerView
  simp only [ht, hp, hn]
  refine ⟨by simp, by simp, by omega, ?_⟩
  intro k hk
  cases hk
  exact ⟨h3, by omega⟩

theorem TimerInv_of_view (s t : AppState) (hv : timerView t = timerView s)
    (h : TimerInv s) : TimerInv t := by
  unfold TimerInv
  rw [hv]
  exact h

theorem completedBlock_inv (p : Project) (s : AppState) (h : TimerInv s) :
    TimerInv (completedBlock p s) := by
  unfold completedBlock
  split
  · simp only []
    split
    · apply TimerInv_of_view (stopPolling (hideAllLoading s)) _ (by simp)
      exact stopPolling_inv _ (TimerInv_of_view s _ (by simp) h)
    · exact TimerInv_of_view s _ (by simp) h
  · exact h

theorem loadProject_inv (id : Option String) (b : Bool) (resp : Fetched Project)
    (s : AppState) (h : TimerInv s) : TimerInv (loadProject id b resp s).1 := by
  unfold loadProject
  cases resp with
  | rejected m => exact TimerInv_of_view s _ (by simp) h
  | unparsable ok m => exact TimerInv_of_view s _ (by simp) h
  | json ok p =>
    simp only []
    split
    · exact TimerInv_of_view s _ (by simp) h
    · apply TimerInv_of_view (completedBlock p (showProject p (loadProjectBegin id b s))) _
        (by simp)
      apply completedBlock_inv
      exact TimerInv_of_view s _ (by simp) h

theorem hideIndicators_timerView (s : AppState) :
    timerView (hideIndicators s).1 = timerView s := by
  unfold hideIndicators
  split <;> simp

theorem tickCompleted_inv (cb : Option OnComplete) (project : Fetched Project)
    (s : AppState) (h : TimerInv s) : TimerInv (tickCompleted cb project s).1 := by
  unfold tickCompleted
  have h1 : TimerInv (runOnComplete cb (updateStatus "任务已完成，正在同步数据..." "green"
      (stopPolling s))) :=
    TimerInv_of_view (stopPolling s) _ (by simp) (stopPolling_inv s h)
  have h2 := loadProject_inv (runOnComplete cb (updateStatus "任务已完成，正在同步数据..." "green"
      (stopPolling s))).projectId false project _ h1
  simp only []
  cases hlp : loadProject (runOnComplete cb (updateStatus "任务已完成，正在同步数据..." "green"
      (stopPolling s))).projectId false project (runOnComplete cb
      (updateStatus "任务已完成，正在同步数据..." "green" (stopPolling s))) with
  | mk s2 err =>
    rw [hlp] at h2
    cases err with
    | some m => exact h2
    | none =>
      exact TimerInv_of_view s2 _ (by rw [hideIndicators_timerView]; simp) h2

theorem tickFailed_inv (task : Task) (cb : Option OnComplete) (project : Fetched Project)
    (s : AppState) (h : TimerInv s) : TimerInv (tickFailed task cb project s).1 := by
  unfold tickFailed
  have h1 : TimerInv (hideIndicators (setInteractionState true (runOnComplete cb
      (updateStatus ("任务失败: " ++ orElse task.error "未知错误") "red" (stopPolling s))))).1 :=
    TimerInv_of_view (stopPolling s) _ (by rw [hideIndicators_timerView]; simp)
      (stopPolling_inv s h)
  simp only []
  cases hhi : hideIndicators (setInteractionState true (runOnComplete cb
      (updateStatus ("任务失败: " ++ orElse task.error "未知错误") "red" (stopPolling s)))) with
  | mk s2 err =>
    rw [hhi] at h1
    cases err with
    | some m => exact h1
    | none => exact loadProject_inv _ false project s2 h1

theorem tickRunning_inv (task : Task) (project : Fetched Project)
    (s : AppState) (h : TimerInv s) : TimerInv (tickRunning task project s).1 := by
  unfold tickRunning
  simp only []
  split
  · exact loadProject_inv _ false project _ (TimerInv_of_view s _ (by simp) h)
  · exact TimerInv_of_view s _ (by simp) h

theorem pollTry_inv (taskId : String) (cb : Option OnComplete) (env : TickEnv)
    (s : AppState) (h : TimerInv s) : TimerInv (pollTry taskId cb env s).1 := by
  have h1 : TimerInv (s.emit (Effect.request "GET" ("/api/tasks/" ++ taskId))) :=
    TimerInv_of_view s _ (by simp) h
  unfold pollTry
  cases env.task with
  | rejected m => exact h1
  | unparsable ok m =>
    simp only []
    split <;> exact h1
  | json ok task =>
    simp only []
    split
    · exact h1
    · split
      · exact tickCompleted_inv cb env.project _ h1
      · split
        · exact tickFailed_inv task cb env.project _ h1
        · exact tickRunning_inv task env.project _ h1

theorem pollTick_inv (taskId : String) (cb : Option OnComplete) (env : TickEnv)
    (s : AppState) (h : TimerInv s) : TimerInv (pollTick taskId cb env s) := by
  have := pollTry_inv taskId cb env s h
  unfold pollTick pollCatch
  split
  · exact TimerInv_of_view _ _ (by simp) this
  · exact this

theorem stepEvent_inv (s : AppState) (e : PollEvent) (h : TimerInv s) :
    TimerInv (stepEvent s e) := by
  cases e with
  | startPolling taskId cb => exact startPolling_inv taskId cb s h
  | tick taskId cb env => exact pollTick_inv taskId cb env s h
  | tickStop => exact stopPolling_inv s h
  | loadProject id b resp => exact loadProject_inv id b resp s h

theorem runEvents_inv (evs : List PollEvent) (s : AppState) (h : TimerInv s) :
    TimerInv (runEvents s evs) := by
  induction evs generalizing s with
  | nil => exact h
  | cons e es ih => exact ih (stepEvent s e) (stepEvent_inv s e h)

/-- C1. In every state reached from a page without timers through any sequence of
`startPolling` calls, poll ticks (whole, or resuming in their terminal segment) and
`loadProject` runs, every active interval timer is the one tracked by
`pollingInterval` and at most one is active; `pollingInterval` is `null` only when
no timer is active; and a further `startPolling` leaves exactly its new timer
active, the previously tracked one having been cleared. -/
theorem single_polling_timer (s0 : AppState) (evs : List PollEvent)
    (ht : s0.timers = []) (hp : s0.pollingInterval = none) (hn : 1 ≤ s0.nextTimer) :
    (∀ h ∈ (runEvents s0 evs).timers, (runEvents s0 evs).pollingInterval = some h) ∧
    (runEvents s0 evs).timers.length ≤ 1 ∧
    ((runEvents s0 evs).pollingInterval = none → (runEvents s0 evs).timers = []) ∧
    (∀ taskId cb,
      (startPolling taskId cb (runEvents s0 evs)).timers = [(runEvents s0 evs).nextTimer] ∧
      (startPolling taskId cb (runEvents s0 evs)).pollingInterval =
        some (runEvents s0 evs).nextTimer ∧
      ∀ h ∈ (runEvents s0 evs).timers,
        h ∉ (startPolling taskId cb (runEvents s0 evs)).timers) := by
  have h0 : TimerInv s0 := by
    unfold TimerInv TimerInvOn timerView
    simp [ht, hp, hn]
  have hinv := runEvents_inv evs s0 h0
  obtain ⟨h1, h2, h3, h4⟩ := hinv
  simp only [timerView] at h1 h2 h3 h4
  refine ⟨h1, h2, ?_, ?_⟩
  · intro hnone
    cases htm : (runEvents s0 evs).timers with
    | nil => rfl
    | cons t ts =>
      have := h1 t (by rw [htm]; simp)
      rw [hnone] at this
      exact absurd this (by simp)
  · intro taskId cb
    obtain ⟨hst, hsp, _⟩ := startPolling_timers taskId cb _ (runEvents_inv evs s0 h0)
    refine ⟨hst, hsp, ?_⟩
    intro h hmem
    rw [hst]
    have := (h4 h (h1 h hmem)).2
    simp only [List.mem_singleton]
    omega

theorem single_polling_timer_witness :
    (∀ h ∈ (runEvents initialState sampleEvents).timers,
      (runEvents initialState sampleEvents).pollingInterval = some h) ∧
    (runEvents initialState sampleEvents).timers.length ≤ 1 ∧
    ((runEvents initialState sampleEvents).pollingInterval = none →
      (runEvents initialState sampleEvents).timers = []) ∧
    (∀ taskId cb,
      (startPolling taskId cb (runEvents initialState sampleEvents)).timers =
        [(runEvents initialState sampleEvents).nextTimer] ∧
      (startPolling taskId cb (runEvents initialState sampleEvents)).pollingInterval =
        some (runEvents initialState sampleEvents).nextTimer ∧
      ∀ h ∈ (runEvents initialState sampleEvents).timers,
        h ∉ (startPolling taskId cb (runEvents initialState sampleEvents)).timers) :=
  single_polling_timer initialState sampleEvents rfl rfl (by decide)


/-! ### Polling: when it stops -/

theorem completedBlock_other (p : Project) (s : AppState) (h : p.status ≠ "completed") :
    completedBlock p s = s := by
  unfold completedBlock
  rw [if_neg h]

/-- A project request that does not report the project completed leaves the timers
alone. -/
theorem loadProject_keeps (id : Option String) (b : Bool) (resp : Fetched Project)
    (s : AppState) (h : refreshCompleted resp = false) :
    timerView (loadProject id b resp s).1 = timerView s := by
  unfold loadProject
  cases resp with
  | rejected m => simp
  | unparsable ok m => simp
  | json ok p =>
    simp only []
    split
    · simp
    · rename_i hok
      have hok2 : ok = true := by simpa using hok
      subst hok2
      have hp : p.status ≠ "completed" := by
        simpa [refreshCompleted] using h
      rw [completedBlock_other p _ hp]
      simp

/-- A tick that observes no terminal task status and whose project request does not
report the project completed leaves the timers alone. -/
theorem pollTick_keeps (taskId : String) (cb : Option OnComplete) (env : TickEnv)
    (s : AppState) (ht : observesTerminal env.task = false)
    (hp : refreshCompleted env.project = false) :
    timerView (pollTick taskId cb env s) = timerView s := by
  have key : timerView (pollTry taskId cb env s).1 = timerView s := by
    unfold pollTry
    cases htask : env.task with
    | rejected m => simp
    | unparsable ok m =>
      simp only []
      split <;> simp
    | json ok task =>
      simp only []
      split
      · simp
      · rename_i hok
        have hok2 : ok = true := by simpa using hok
        subst hok2
        rw [htask] at ht
        simp only [observesTerminal, Bool.or_eq_false_iff, beq_eq_false_iff_ne, ne_eq] at ht
        rw [if_neg ht.1, if_neg ht.2]
        unfold tickRunning
        simp only []
        split
        · rw [loadProject_keeps _ _ _ _ hp]
          simp
        · simp
  unfold pollTick pollCatch
  split
  · simpa using key
  · exact key

theorem runTicks_keeps (taskId : String) (cb : Option OnComplete) (envs : List TickEnv)
    (s : AppState)
    (h : ∀ e ∈ envs, observesTerminal e.task = false ∧ refreshCompleted e.project = false) :
    timerView (runTicks taskId cb s envs) = timerView s := by
  induction envs generalizing s with
  | nil => rfl
  | cons e es ih =>
    have he := h e (by simp)
    have := ih (pollTick taskId cb e s) (fun e2 h2 => h e2 (by simp [h2]))
    unfold runTicks at this ⊢
    rw [List.foldl_cons, this]
    exact pollTick_keeps taskId cb e s he.1 he.2

/-- C3, counterexample.  After `startPolling`, an unbounded run of ticks that all find
the task running (and the project in progress) never stops the interval timer:
there is no number of ticks after which no timer is active. -/
theorem polling_timeout_counterexample :
    ¬ ∃ n, (runTicks "t1" none pollingState (List.replicate n runningEnv)).timers = [] := by
  rintro ⟨n, hn⟩
  have hk := runTicks_keeps "t1" none (List.replicate n runningEnv) pollingState (by
    intro e he
    rw [List.eq_of_mem_replicate he]
    exact ⟨by decide, by decide⟩)
  have ht : (runTicks "t1" none pollingState (List.replicate n runningEnv)).timers
      = pollingState.timers := by
    have := congrArg (fun v => v.2.1) hk
    simpa [timerView] using this
  rw [ht] at hn
  exact absurd hn (by decide)

/-- No timer is active and none is tracked. -/
theorem quiet_of_view (s t : AppState) (hv : timerView t = timerView s)
    (hq : s.timers = [] ∧ s.pollingInterval = none) :
    t.timers = [] ∧ t.pollingInterval = none := by
  simp only [timerView, Prod.mk.injEq] at hv
  exact ⟨hv.2.1.trans hq.1, hv.1.trans hq.2⟩

theorem completedBlock_quiet (p : Project) (s : AppState)
    (hq : s.timers = [] ∧ s.pollingInterval = none) :
    (completedBlock p s).timers = [] ∧ (completedBlock p s).pollingInterval = none := by
  unfold completedBlock
  split
  · have hh := quiet_of_view s (hideAllLoading s) (by simp) hq
    simp only []
    rw [if_neg (by rw [hh.2]; simp [truthyHandle])]
    exact hh
  · exact hq

theorem loadProject_quiet (id : Option String) (b : Bool) (resp : Fetched Project)
    (s : AppState) (hq : s.timers = [] ∧ s.pollingInterval = none) :
    (loadProject id b resp s).1.timers = [] ∧
    (loadProject id b resp s).1.pollingInterval = none := by
  unfold loadProject
  cases resp with
  | rejected m => exact quiet_of_view s _ (by simp) hq
  | unparsable ok m => exact quiet_of_view s _ (by simp) hq
  | json ok p =>
    simp only []
    split
    · exact quiet_of_view s _ (by simp) hq
    · apply quiet_of_view (completedBlock p (showProject p (loadProjectBegin id b s))) _
        (by simp)
      apply completedBlock_quiet
      exact quiet_of_view s _ (by simp) hq

theorem completedBlock_stops (p : Project) (s : AppState) (hinv : TimerInv s)
    (hp : p.status = "completed") :
    (completedBlock p s).timers = [] ∧ (completedBlock p s).pollingInterval = none := by
  unfold completedBlock
  rw [if_pos hp]
  simp only []
  have hinv2 : TimerInv (hideAllLoading s) := TimerInv_of_view s _ (by simp) hinv
  split
  · exact quiet_of_view (stopPolling (hideAllLoading s)) _ (by simp)
      (stopPolling_clears _ hinv2)
  · rename_i hnt
    obtain ⟨h1, _, _, h4⟩ := hinv2
    simp only [timerView] at h1 h4
    cases hpi : (hideAllLoading s).pollingInterval with
    | some k =>
      have := (h4 k hpi).1
      rw [hpi] at hnt
      simp only [truthyHandle, bne_iff_ne, ne_eq, not_not] at hnt
      omega
    | none =>
      refine ⟨?_, rfl⟩
      cases htm : (hideAllLoading s).timers with
      | nil => rfl
      | cons t ts =>
        have := h1 t (by rw [htm]; simp)
        rw [hpi] at this
        exact absurd this (by simp)

theorem loadProject_stops (id : Option String) (b : Bool) (resp : Fetched Project)
    (s : AppState) (hinv : TimerInv s) (hdone : refreshCompleted resp = true) :
    (loadProject id b resp s).1.timers = [] ∧
    (loadProject id b resp s).1.pollingInterval = none := by
  unfold loadProject
  cases resp with
  | rejected m => simp [refreshCompleted] at hdone
  | unparsable ok m => simp [refreshCompleted] at hdone
  | json ok p =>
    cases ok with
    | false => simp [refreshCompleted] at hdone
    | true =>
      simp only [refreshCompleted, beq_iff_eq] at hdone
      simp only [Bool.not_true, Bool.false_eq_true, if_false]
      exact quiet_of_view (completedBlock p (showProject p (loadProjectBegin id b s))) _
        (by simp) (completedBlock_stops p _ (TimerInv_of_view s _ (by simp) hinv) hdone)

theorem tickCompleted_stops (cb : Option OnComplete) (project : Fetched Project)
    (s : AppState) (hinv : TimerInv s) :
    (tickCompleted cb project s).1.timers = [] ∧
    (tickCompleted cb project s).1.pollingInterval = none := by
  unfold tickCompleted
  have h1 := quiet_of_view (stopPolling s) (runOnComplete cb
    (updateStatus "任务已完成，正在同步数据..." "green" (stopPolling s))) (by simp)
    (stopPolling_clears s hinv)
  have h2 := loadProject_quiet (runOnComplete cb (updateStatus "任务已完成，正在同步数据..." "green"
      (stopPolling s))).projectId false project _ h1
  simp only []
  cases hlp : loadProject (runOnComplete cb (updateStatus "任务已完成，正在同步数据..." "green"
      (stopPolling s))).projectId false project (runOnComplete cb
      (updateStatus "任务已完成，正在同步数据..." "green" (stopPolling s))) with
  | mk s2 err =>
    rw [hlp] at h2
    cases err with
    | some m => exact h2
    | none => exact quiet_of_view s2 _ (by rw [hideIndicators_timerView]; simp) h2

theorem tickFailed_stops (task : Task) (cb : Option OnComplete) (project : Fetched Project)
    (s : AppState) (hinv : TimerInv s) :
    (tickFailed task cb project s).1.timers = [] ∧
    (tickFailed task cb project s).1.pollingInterval = none := by
  unfold tickFailed
  have h1 := quiet_of_view (stopPolling s) (hideIndicators (setInteractionState true
    (runOnComplete cb (updateStatus ("任务失败: " ++ orElse task.error "未知错误") "red"
      (stopPolling s))))).1 (by rw [hideIndicators_timerView]; simp)
    (stopPolling_clears s hinv)
  simp only []
  cases hhi : hideIndicators (setInteractionState true (runOnComplete cb
      (updateStatus ("任务失败: " ++ orElse task.error "未知错误") "red" (stopPolling s)))) with
  | mk s2 err =>
    rw [hhi] at h1
    cases err with
    | some m => exact h1
    | none => exact loadProject_quiet _ false project s2 h1

theorem pollCatch_view (r : AppState × Option String) :
    timerView (pollCatch r) = timerView r.1 := by
  unfold pollCatch
  split <;> simp

/-- C3, amended.  Polling has three terminal conditions and no timeout.  From any
state satisfying the timer invariant: a tick that observes the task status
`completed` or `failed` leaves no timer active; so does a tick that observes another
status while a project is open and the project request reports the project
`completed`; and any run of ticks in which neither happens (ticks whose requests
fail included) leaves the timers and `pollingInterval` exactly as they were. -/
theorem polling_terminal_conditions (taskId : String) (cb : Option OnComplete)
    (s : AppState) (hinv : TimerInv s) :
    (∀ env, observesTerminal env.task = true →
      (pollTick taskId cb env s).timers = [] ∧
      (pollTick taskId cb env s).pollingInterval = none) ∧
    (∀ env, observesRunning env.task = true → truthy s.projectId = true →
      refreshCompleted env.project = true →
      (pollTick taskId cb env s).timers = [] ∧
      (pollTick taskId cb env s).pollingInterval = none) ∧
    (∀ envs : List TickEnv,
      (∀ e ∈ envs, observesTerminal e.task = false ∧ refreshCompleted e.project = false) →
      (runTicks taskId cb s envs).timers = s.timers ∧
      (runTicks taskId cb s envs).pollingInterval = s.pollingInterval) := by
  have h1 : TimerInv (s.emit (Effect.request "GET" ("/api/tasks/" ++ taskId))) :=
    TimerInv_of_view s _ (by simp) hinv
  refine ⟨?_, ?_, ?_⟩
  · intro env ht
    have key : (pollTry taskId cb env s).1.timers = [] ∧
        (pollTry taskId cb env s).1.pollingInterval = none := by
      unfold pollTry
      cases htask : env.task with
      | rejected m => rw [htask] at ht; simp [observesTerminal] at ht
      | unparsable ok m => rw [htask] at ht; simp [observesTerminal] at ht
      | json ok task =>
        rw [htask] at ht
        cases ok with
        | false => simp [observesTerminal] at ht
        | true =>
          simp only [observesTerminal, Bool.or_eq_true, beq_iff_eq] at ht
          simp only [Bool.not_true, Bool.false_eq_true, if_false]
          by_cases hc : task.status = "completed"
          · rw [if_pos hc]
            exact tickCompleted_stops cb env.project _ h1
          · rw [if_neg hc, if_pos (ht.resolve_left hc)]
            exact tickFailed_stops task cb env.project _ h1
    exact quiet_of_view _ _ (pollCatch_view _) key
  · intro env hr hpid hdone
    have key : (pollTry taskId cb env s).1.timers = [] ∧
        (pollTry taskId cb env s).1.pollingInterval = none := by
      unfold pollTry
      cases htask : env.task with
      | rejected m => rw [htask] at hr; simp [observesRunning] at hr
      | unparsable ok m => rw [htask] at hr; simp [observesRunning] at hr
      | json ok task =>
        rw [htask] at hr
        cases ok with
        | false => simp [observesRunning] at hr
        | true =>
          simp only [observesRunning, Bool.not_eq_true', Bool.or_eq_false_iff,
            beq_eq_false_iff_ne, ne_eq] at hr
          simp only [Bool.not_true, Bool.false_eq_true, if_false]
          rw [if_neg hr.1, if_neg hr.2]
          unfold tickRunning
          simp only []
          rw [if_pos (by simpa [updateStatus, AppState.emit] using hpid)]
          exact loadProject_stops _ false env.project _
            (TimerInv_of_view s _ (by simp) hinv) hdone
    exact quiet_of_view _ _ (pollCatch_view _) key
  · intro envs h
    have := runTicks_keeps taskId cb envs s h
    simp only [timerView, Prod.mk.injEq] at this
    exact ⟨this.2.1, this.1⟩

theorem pollingState_inv : TimerInv pollingState := by
  refine ⟨by decide, by decide, by decide, ?_⟩
  intro h hh
  have hp : (timerView pollingState).1 = some 1 := by decide
  rw [hp] at hh
  cases hh
  decide

theorem polling_terminal_conditions_witness :
    ((pollTick "t1" none failedEnv pollingState).timers = [] ∧
      (pollTick "t1" none failedEnv pollingState).pollingInterval = none) ∧
    ((pollTick "t1" none projectDoneEnv pollingState).timers = [] ∧
      (pollTick "t1" none projectDoneEnv pollingState).pollingInterval = none) ∧
    ((runTicks "t1" none pollingState [runningEnv, runningEnv, runningEnv]).timers =
        pollingState.timers ∧
      (runTicks "t1" none pollingState [runningEnv, runningEnv, runningEnv]).pollingInterval =
        pollingState.pollingInterval) :=
  ⟨(polling_terminal_conditions "t1" none pollingState pollingState_inv).1 failedEnv
      (by decide),
    (polling_terminal_conditions "t1" none pollingState pollingState_inv).2.1 projectDoneEnv
      (by decide) (by decide) (by decide),
    (polling_terminal_conditions "t1" none pollingState pollingState_inv).2.2
      [runningEnv, runningEnv, runningEnv] (by decide)⟩

/-! ### Frame lemmas for the status line, the record of actions and the variables -/

@[simp] theorem withElem_coreView (s : AppState) (id : ElemId) (f : Element → Element) :
    coreView (s.withElem id f) = coreView s := by
  unfold AppState.withElem
  cases s.dom id <;> rfl

@[simp] theorem setViewClass_coreView (s : AppState) (id : String) (cl : List String) :
    coreView (s.setViewClass id cl) = coreView s := rfl

@[simp] theorem setLoading_coreView (step : String) (b : Bool) (s : AppState) :
    coreView (setLoading step b s) = coreView s := by
  unfold setLoading
  cases loadingElem step <;> simp

@[simp] theorem switchTab_coreView (tab : String) (s : AppState) :
    coreView (switchTab tab s) = coreView s := by
  unfold switchTab
  simp only [views, List.map, List.foldl]
  split <;> simp only [setViewClass_coreView] <;> rfl

theorem setInteractionState_coreView (b : Bool) (s : AppState) :
    coreView (setInteractionState b s) =
      (s.statusText, s.statusDot, s.projectId, s.currentProject,
        s.log ++ [Effect.setInteractionState b]) := by
  have h : ∀ t : AppState, coreView (t.emit (Effect.setInteractionState b)) =
      ((coreView t).1, (coreView t).2.1, (coreView t).2.2.1, (coreView t).2.2.2.1,
        (coreView t).2.2.2.2 ++ [Effect.setInteractionState b]) := fun _ => rfl
  simp only [setInteractionState, interactionButtons, List.foldl, h, withElem_coreView]
  rfl

theorem coreView_fields (s t : AppState) (h : coreView t = coreView s) :
    t.statusText = s.statusText ∧ t.statusDot = s.statusDot ∧ t.projectId = s.projectId ∧
    t.currentProject = s.currentProject ∧ t.log = s.log := by
  simp only [coreView, Prod.mk.injEq] at h
  exact h

@[simp] theorem withElem_statusText (s : AppState) (id : ElemId) (f : Element → Element) :
    (s.withElem id f).statusText = s.statusText :=
  congrArg (fun v => v.1) (withElem_coreView s id f)

@[simp] theorem withElem_statusDot (s : AppState) (id : ElemId) (f : Element → Element) :
    (s.withElem id f).statusDot = s.statusDot :=
  congrArg (fun v => v.2.1) (withElem_coreView s id f)

@[simp] theorem withElem_projectId (s : AppState) (id : ElemId) (f : Element → Element) :
    (s.withElem id f).projectId = s.projectId :=
  congrArg (fun v => v.2.2.1) (withElem_coreView s id f)

@[simp] theorem withElem_currentProject (s : AppState) (id : ElemId) (f : Element → Element) :
    (s.withElem id f).currentProject = s.currentProject :=
  congrArg (fun v => v.2.2.2.1) (withElem_coreView s id f)

@[simp] theorem withElem_log (s : AppState) (id : ElemId) (f : Element → Element) :
    (s.withElem id f).log = s.log :=
  congrArg (fun v => v.2.2.2.2) (withElem_coreView s id f)

@[simp] theorem setViewClass_statusText (s : AppState) (id : String) (cl : List String) :
    (s.setViewClass id cl).statusText = s.statusText :=
  congrArg (fun v => v.1) (setViewClass_coreView s id cl)

@[simp] theorem setViewClass_statusDot (s : AppState) (id : String) (cl : List String) :
    (s.setViewClass id cl).statusDot = s.statusDot :=
  congrArg (fun v => v.2.1) (setViewClass_coreView s id cl)

@[simp] theorem setViewClass_projectId (s : AppState) (id : String) (cl : List String) :
    (s.setViewClass id cl).projectId = s.projectId :=
  congrArg (fun v => v.2.2.1) (setViewClass_coreView s id cl)

@[simp] theorem setViewClass_currentProject (s : AppState) (id : String) (cl : List String) :
    (s.setViewClass id cl).currentProject = s.currentProject :=
  congrArg (fun v => v.2.2.2.1) (setViewClass_coreView s id cl)

@[simp] theorem setViewClass_log (s : AppState) (id : String) (cl : List String) :
    (s.setViewClass id cl).log = s.log :=
  congrArg (fun v => v.2.2.2.2) (setViewClass_coreView s id cl)

@[simp] theorem setLoading_statusText (step : String) (b : Bool) (s : AppState) :
    (setLoading step b s).statusText = s.statusText :=
  congrArg (fun v => v.1) (setLoading_coreView step b s)

@[simp] theorem setLoading_statusDot (step : String) (b : Bool) (s : AppState) :
    (setLoading step b s).statusDot = s.statusDot :=
  congrArg (fun v => v.2.1) (setLoading_coreView step b s)

@[simp] theorem setLoading_projectId (step : String) (b : Bool) (s : AppState) :
    (setLoading step b s).projectId = s.projectId :=
  congrArg (fun v => v.2.2.1) (setLoading_coreView step b s)

@[simp] theorem setLoading_currentProject (step : String) (b : Bool) (s : AppState) :
    (setLoading step b s).currentProject = s.currentProject :=
  congrArg (fun v => v.2.2.2.1) (setLoading_coreView step b s)

@[simp] theorem setLoading_log (step : String) (b : Bool) (s : AppState) :
    (setLoading step b s).log = s.log :=
  congrArg (fun v => v.2.2.2.2) (setLoading_coreView step b s)

@[simp] theorem switchTab_statusText (tab : String) (s : AppState) :
    (switchTab tab s).statusText = s.statusText :=
  congrArg (fun v => v.1) (switchTab_coreView tab s)

@[simp] theorem switchTab_statusDot (tab : String) (s : AppState) :
    (switchTab tab s).statusDot = s.statusDot :=
  congrArg (fun v => v.2.1) (switchTab_coreView tab s)

@[simp] theorem switchTab_projectId (tab : String) (s : AppState) :
    (switchTab tab s).projectId = s.projectId :=
  congrArg (fun v => v.2.2.1) (switchTab_coreView tab s)

@[simp] theorem switchTab_currentProject (tab : String) (s : AppState) :
    (switchTab tab s).currentProject = s.currentProject :=
  congrArg (fun v => v.2.2.2.1) (switchTab_coreView tab s)

@[simp] theorem switchTab_log (tab : String) (s : AppState) :
    (switchTab tab s).log = s.log :=
  congrArg (fun v => v.2.2.2.2) (switchTab_coreView tab s)

@[simp] theorem setInteractionState_statusText (b : Bool) (s : AppState) :
    (setInteractionState b s).statusText = s.statusText :=
  congrArg (fun v => v.1) (setInteractionState_coreView b s)

@[simp] theorem setInteractionState_statusDot (b : Bool) (s : AppState) :
    (setInteractionState b s).statusDot = s.statusDot :=
  congrArg (fun v => v.2.1) (setInteractionState_coreView b s)

@[simp] theorem setInteractionState_projectId (b : Bool) (s : AppState) :
    (setInteractionState b s).projectId = s.projectId :=
  congrArg (fun v => v.2.2.1) (setInteractionState_coreView b s)

@[simp] theorem setInteractionState_currentProject (b : Bool) (s : AppState) :
    (setInteractionState b s).currentProject = s.currentProject :=
  congrArg (fun v => v.2.2.2.1) (setInteractionState_coreView b s)

@[simp] theorem setInteractionState_log (b : Bool) (s : AppState) :
    (setInteractionState b s).log = s.log ++ [Effect.setInteractionState b] :=
  congrArg (fun v => v.2.2.2.2) (setInteractionState_coreView b s)

@[simp] theorem emit_statusText (s : AppState) (e : Effect) :
    (s.emit e).statusText = s.statusText := rfl

@[simp] theorem emit_statusDot (s : AppState) (e : Effect) :
    (s.emit e).statusDot = s.statusDot := rfl

@[simp] theorem emit_projectId (s : AppState) (e : Effect) :
    (s.emit e).projectId = s.projectId := rfl

@[simp] theorem emit_currentProject (s : AppState) (e : Effect) :
    (s.emit e).currentProject = s.currentProject := rfl

@[simp] theorem emit_log (s : AppState) (e : Effect) :
    (s.emit e).log = s.log ++ [e] := rfl

@[simp] theorem updateStatus_statusText (m c : String) (s : AppState) :
    (updateStatus m c s).statusText = m := rfl

@[simp] theorem updateStatus_statusDot (m c : String) (s : AppState) :
    (updateStatus m c s).statusDot = "w-2 h-2 rounded-full mr-2 bg-" ++ c ++ "-500" := rfl

@[simp] theorem updateStatus_projectId (m c : String) (s : AppState) :
    (updateStatus m c s).projectId = s.projectId := rfl

@[simp] theorem updateStatus_currentProject (m c : String) (s : AppState) :
    (updateStatus m c s).currentProject = s.currentProject := rfl

@[simp] theorem updateStatus_log (m c : String) (s : AppState) :
    (updateStatus m c s).log = s.log ++ [Effect.updateStatus m c] := rfl

@[simp] theorem loadProjectBegin_statusText (id : Option String) (b : Bool) (s : AppState) :
    (loadProjectBegin id b s).statusText = s.statusText := rfl

@[simp] theorem loadProjectBegin_statusDot (id : Option String) (b : Bool) (s : AppState) :
    (loadProjectBegin id b s).statusDot = s.statusDot := rfl

@[simp] theorem loadProjectBegin_projectId (id : Option String) (b : Bool) (s : AppState) :
    (loadProjectBegin id b s).projectId = id := rfl

@[simp] theorem loadProjectBegin_log (id : Option String) (b : Bool) (s : AppState) :
    (loadProjectBegin id b s).log = s.log ++ [Effect.loadProject id b,
      Effect.request "GET" ("/api/projects/" ++ idText id)] := by
  simp [loadProjectBegin, AppState.emit, AppState.setProjectId]

@[simp] theorem loadProjectBegin_dom (id : Option String) (b : Bool) (s : AppState) :
    (loadProjectBegin id b s).dom = s.dom := rfl

@[simp] theorem emit_dom (s : AppState) (e : Effect) : (s.emit e).dom = s.dom := rfl

@[simp] theorem updateStatus_dom (m c : String) (s : AppState) :
    (updateStatus m c s).dom = s.dom := rfl

@[simp] theorem stepLoading_statusText (stepName : String) (b : Bool) (s : AppState) :
    (stepLoading stepName b s).statusText = s.statusText := by
  unfold stepLoading; split <;> simp

@[simp] theorem stepLoading_statusDot (stepName : String) (b : Bool) (s : AppState) :
    (stepLoading stepName b s).statusDot = s.statusDot := by
  unfold stepLoading; split <;> simp

@[simp] theorem stepLoading_projectId (stepName : String) (b : Bool) (s : AppState) :
    (stepLoading stepName b s).projectId = s.projectId := by
  unfold stepLoading; split <;> simp

@[simp] theorem stepLoading_currentProject (stepName : String) (b : Bool) (s : AppState) :
    (stepLoading stepName b s).currentProject = s.currentProject := by
  unfold stepLoading; split <;> simp

@[simp] theorem stepLoading_log (stepName : String) (b : Bool) (s : AppState) :
    (stepLoading stepName b s).log = s.log := by
  unfold stepLoading; split <;> simp

theorem callStepPrepare_fields (stepName : String) (s : AppState) :
    (callStepPrepare stepName s).projectId = s.projectId ∧
    (callStepPrepare stepName s).currentProject = s.currentProject := by
  unfold callStepPrepare
  simp only []
  constructor <;> (split <;> simp)

theorem callStepPost_projectId (stepName : String) (cp : Project) (s : AppState) :
    (callStepPost stepName cp s).projectId = s.projectId := by
  unfold callStepPost optimisticUpdate
  simp only []
  split <;> rfl

theorem callStepTry_fail (stepName : String) (env : StepEnv) (s : AppState) (m : String)
    (h : stepFailure env.post = some m) : callStepTry stepName env s = (s, some m) := by
  unfold callStepTry
  unfold stepFailure at h
  cases hp : env.post with
  | rejected m2 => rw [hp] at h; simp only [Option.some.injEq] at h; rw [h]
  | unparsable ok m2 => rw [hp] at h; simp only [Option.some.injEq] at h; rw [h]
  | json ok data =>
    rw [hp] at h
    simp only [] at h ⊢
    split at h
    · rename_i hc
      simp only [Option.some.injEq] at h
      rw [if_pos hc, h]
    · exact absurd h (by simp)

theorem setInteractionState_dom (b : Bool) (s : AppState) (id : ElemId) :
    (setInteractionState b s).dom id =
      if id ∈ interactionButtons then (s.dom id).map (interactionElem b) else s.dom id := by
  simp only [setInteractionState, interactionButtons, List.foldl, AppState.emit, withElem_dom]
  cases id <;> simp

theorem setLoading_dom_button (step : String) (b : Bool) (s : AppState) (id : ElemId)
    (hid : id ∈ interactionButtons) : (setLoading step b s).dom id = s.dom id := by
  unfold setLoading loadingElem
  split_ifs <;> simp only [withElem_dom] <;>
    (first
      | rfl
      | (rw [if_neg]
         intro h
         subst h
         simp [interactionButtons] at hid))

/-! ### Polling: a completed task whose project refresh fails -/

theorem stopPolling_log (s : AppState) :
    (stopPolling s).log = s.log ++
      (match s.pollingInterval with
       | some h => [Effect.clearInterval h]
       | none => []) := by
  unfold stopPolling clearInterval
  cases s.pollingInterval <;> simp [AppState.emit]

theorem stopPolling_dom (s : AppState) : (stopPolling s).dom = s.dom := by
  unfold stopPolling clearInterval
  cases s.pollingInterval <;> rfl

theorem stopPolling_projectId (s : AppState) : (stopPolling s).projectId = s.projectId := by
  unfold stopPolling clearInterval
  cases s.pollingInterval <;> rfl

theorem runOnComplete_log (cb : Option OnComplete) (s : AppState) :
    (runOnComplete cb s).log = s.log ++ (if cb.isSome then [Effect.onComplete] else []) := by
  unfold runOnComplete
  cases cb with
  | none => simp
  | some c => cases c; simp [AppState.emit]

theorem runOnComplete_dom (cb : Option OnComplete) (s : AppState) :
    (runOnComplete cb s).dom = s.dom := by
  unfold runOnComplete
  cases cb with
  | none => rfl
  | some c => cases c; rfl

theorem loadProject_throws (id : Option String) (b : Bool) (resp : Fetched Project)
    (s : AppState) (m : String) (h : refreshThrows resp = some m) :
    loadProject id b resp s = (loadProjectBegin id b s, some m) := by
  unfold loadProject
  cases resp with
  | rejected m2 => simp only [refreshThrows, Option.some.injEq] at h; rw [h]
  | unparsable ok m2 => simp only [refreshThrows, Option.some.injEq] at h; rw [h]
  | json ok p => simp [refreshThrows] at h

/-- The state in which a tick ends that observed `completed` and whose project
request threw. -/
theorem pollTick_lost_refresh (taskId : String) (cb : Option OnComplete) (env : TickEnv)
    (task : Task) (s : AppState) (m : String)
    (htask : env.task = Fetched.json true task) (hdone : task.status = "completed")
    (hthrow : refreshThrows env.project = some m) :
    pollTick taskId cb env s =
      (loadProjectBegin
        (runOnComplete cb (updateStatus "任务已完成，正在同步数据..." "green"
          (stopPolling (s.emit (Effect.request "GET" ("/api/tasks/" ++ taskId)))))).projectId
        false
        (runOnComplete cb (updateStatus "任务已完成，正在同步数据..." "green"
          (stopPolling (s.emit (Effect.request "GET" ("/api/tasks/" ++ taskId))))))).emit
        (Effect.consoleError m) := by
  unfold pollTick pollTry
  rw [htask]
  simp only [Bool.not_true, Bool.false_eq_true, if_false, if_pos hdone]
  unfold tickCompleted
  simp only []
  rw [loadProject_throws _ _ _ _ m hthrow]
  rfl

/-- C2, the failing case.  Whenever a tick observes the task status `completed` and the
project request of the `loadProject` that follows throws (the request rejects or its
body is not JSON), the tick ends in its `catch` block: the error goes to the console,
`setInteractionState(true)` is not called during the tick, and no element of the page
is touched, so every button that was disabled stays disabled. -/
theorem completed_tick_lost_refresh (taskId : String) (cb : Option OnComplete)
    (env : TickEnv) (task : Task) (s : AppState) (m : String)
    (htask : env.task = Fetched.json true task) (hdone : task.status = "completed")
    (hthrow : refreshThrows env.project = some m) :
    (pollTick taskId cb env s).log.count (Effect.setInteractionState true) =
      s.log.count (Effect.setInteractionState true) ∧
    (pollTick taskId cb env s).dom = s.dom ∧
    (pollTick taskId cb env s).log.getLast? = some (Effect.consoleError m) ∧
    (pollTick taskId cb env s).pollingInterval = none := by
  rw [pollTick_lost_refresh taskId cb env task s m htask hdone hthrow]
  refine ⟨?_, ?_, ?_, ?_⟩
  · have hpi : (s.emit (Effect.request "GET" ("/api/tasks/" ++ taskId))).pollingInterval
        = s.pollingInterval := rfl
    simp only [emit_log, loadProjectBegin_log, runOnComplete_log, updateStatus_log,
      stopPolling_log, List.count_append, hpi]
    cases cb <;> cases s.pollingInterval <;> simp [List.count_cons]
  · simp only [emit_dom, loadProjectBegin_dom, runOnComplete_dom, updateStatus_dom,
      stopPolling_dom]
  · simp only [emit_log]
    simp
  · have hv : timerView ((loadProjectBegin
        (runOnComplete cb (updateStatus "任务已完成，正在同步数据..." "green"
          (stopPolling (s.emit (Effect.request "GET" ("/api/tasks/" ++ taskId)))))).projectId
        false
        (runOnComplete cb (updateStatus "任务已完成，正在同步数据..." "green"
          (stopPolling (s.emit (Effect.request "GET" ("/api/tasks/" ++ taskId))))))).emit
        (Effect.consoleError m)) =
        timerView (stopPolling (s.emit (Effect.request "GET" ("/api/tasks/" ++ taskId)))) := by
      simp
    have h1 := congrArg (fun v => v.1) hv
    simp only [timerView, stopPolling_timerView] at h1
    exact h1

theorem completed_tick_lost_refresh_witness :
    ((pollTick "t1" (some (OnComplete.releaseScene 0)) lostRefreshEnv pollingState).log.count
        (Effect.setInteractionState true) =
        pollingState.log.count (Effect.setInteractionState true) ∧
      (pollTick "t1" (some (OnComplete.releaseScene 0)) lostRefreshEnv pollingState).dom =
        pollingState.dom ∧
      (pollTick "t1" (some (OnComplete.releaseScene 0)) lostRefreshEnv
        pollingState).log.getLast? = some (Effect.consoleError "Failed to fetch") ∧
      (pollTick "t1" (some (OnComplete.releaseScene 0)) lostRefreshEnv
        pollingState).pollingInterval = none) ∧
    observesTerminal lostRefreshEnv.task = true ∧
    (pollTick "t1" (some (OnComplete.releaseScene 0)) lostRefreshEnv pollingState).timers = [] ∧
    (pollTick "t1" (some (OnComplete.releaseScene 0)) lostRefreshEnv
      pollingState).log.count Effect.onComplete = 1 ∧
    Effect.setInteractionState true ∉
      (pollTick "t1" (some (OnComplete.releaseScene 0)) lostRefreshEnv pollingState).log ∧
    ((pollTick "t1" (some (OnComplete.releaseScene 0)) lostRefreshEnv pollingState).dom
      .createBtn).map Element.disabled = some true ∧
    ((pollTick "t1" (some (OnComplete.releaseScene 0)) lostRefreshEnv pollingState).dom
      .btnGenVideos).map Element.disabled = some true ∧
    Effect.setInteractionState true ∈
      (pollTick "t1" (some (OnComplete.releaseScene 0)) completedEnv pollingState).log ∧
    Effect.setInteractionState true ∈
      (pollTick "t1" (some (OnComplete.releaseScene 0)) failedEnv pollingState).log :=
  ⟨completed_tick_lost_refresh "t1" (some (OnComplete.releaseScene 0)) lostRefreshEnv
      (Task.mk "completed" none (some 100)) pollingState "Failed to fetch" rfl rfl rfl,
    by decide⟩

/-! ### `callStep`: a failed POST -/

theorem interactionElem_enabled (o : Option Element) (el : Element)
    (h : o.map (interactionElem true) = some el) : el.disabled = false := by
  cases o with
  | none => simp at h
  | some e =>
    simp only [Option.map_some', Option.some.injEq] at h
    rw [← h]
    rfl

theorem stepLoading_dom_button (stepName : String) (b : Bool) (s : AppState) (id : ElemId)
    (hid : id ∈ interactionButtons) : (stepLoading stepName b s).dom id = s.dom id := by
  unfold stepLoading
  split
  · exact setLoading_dom_button _ _ _ _ hid
  · rfl

/-- What the `catch` block of `callStep` does when a project is open. -/
theorem callStepCatch_spec (stepName m : String) (x : AppState)
    (hp : truthy x.projectId = true) :
    ShowsError ("错误: " ++ m) (callStepCatch stepName m x) ∧
    (∀ id ∈ interactionButtons, ∀ el,
      (callStepCatch stepName m x).dom id = some el → el.disabled = false) ∧
    (callStepCatch stepName m x).projectId = x.projectId ∧
    (callStepCatch stepName m x).log =
      x.log ++ [Effect.updateStatus ("错误: " ++ m) "red", Effect.setInteractionState true] ++
        (if stepName = "merge" then [Effect.render "output"] else []) ++
        [Effect.loadProject x.projectId false,
         Effect.request "GET" ("/api/projects/" ++ idText x.projectId)] := by
  unfold callStepCatch ShowsError
  simp only []
  by_cases h2 : stepName = "merge"
  · simp only [if_pos h2, if_true, if_false, stepLoading_projectId,
      emit_projectId, setInteractionState_projectId, updateStatus_projectId, hp,
      loadProjectBegin_statusText, loadProjectBegin_statusDot, loadProjectBegin_projectId,
      loadProjectBegin_log, loadProjectBegin_dom, emit_statusText, emit_statusDot, emit_log,
      emit_dom, stepLoading_statusText, stepLoading_statusDot, stepLoading_log,
      setInteractionState_statusText, setInteractionState_statusDot, setInteractionState_log,
      updateStatus_statusText, updateStatus_statusDot, updateStatus_log]
    refine ⟨⟨trivial, by decide, by simp⟩, ?_, trivial, by simp⟩
    intro id hid el hel
    rw [stepLoading_dom_button _ _ _ _ hid, setInteractionState_dom, if_pos hid] at hel
    exact interactionElem_enabled _ _ hel
  · simp only [if_neg h2, if_true, if_false, stepLoading_projectId,
      emit_projectId, setInteractionState_projectId, updateStatus_projectId, hp,
      loadProjectBegin_statusText, loadProjectBegin_statusDot, loadProjectBegin_projectId,
      loadProjectBegin_log, loadProjectBegin_dom, emit_statusText, emit_statusDot, emit_log,
      emit_dom, stepLoading_statusText, stepLoading_statusDot, stepLoading_log,
      setInteractionState_statusText, setInteractionState_statusDot, setInteractionState_log,
      updateStatus_statusText, updateStatus_statusDot, updateStatus_log]
    refine ⟨⟨trivial, by decide, by simp⟩, ?_, trivial, by simp⟩
    intro id hid el hel
    rw [stepLoading_dom_button _ _ _ _ hid, setInteractionState_dom, if_pos hid] at hel
    exact interactionElem_enabled _ _ hel

/-- With a project open and cached, `callStep` whose POST fails ends in its `catch`
block, entered in the state reached right after the POST was sent. -/
theorem callStep_fail_run (stepName : String) (env : StepEnv) (s : AppState) (cp : Project)
    (m : String) (hpid : truthy s.projectId = true) (hcp : s.currentProject = some cp)
    (hfail : stepFailure env.post = some m) :
    callStep stepName env s =
      (callStepCatch stepName m (callStepPost stepName cp (callStepPrepare stepName s)),
        none) := by
  obtain ⟨_, hc1⟩ := callStepPrepare_fields stepName s
  unfold callStep
  rw [if_neg (by simp [hpid])]
  simp only [hc1, hcp]
  rw [callStepTry_fail stepName env _ m hfail]

/-- C4. When a project is open and cached (so that `callStep(stepName)` sends its
POST) and the POST fails with message `m`, the error does not leave `callStep`; the
status line shows `错误: ` followed by `m` with the red indicator; every existing
button of `setInteractionState` is enabled; and the last actions of `callStep` are
`updateStatus`, `setInteractionState(true)`, for the step `merge` the re-rendering
of the output, and `loadProject(projectId, false)` with its request. -/
theorem callStep_failure (stepName : String) (env : StepEnv) (s : AppState) (cp : Project)
    (m : String) (hpid : truthy s.projectId = true) (hcp : s.currentProject = some cp)
    (hfail : stepFailure env.post = some m) :
    (callStep stepName env s).2 = none ∧
    ShowsError ("错误: " ++ m) (callStep stepName env s).1 ∧
    (∀ id ∈ interactionButtons, ∀ el,
      (callStep stepName env s).1.dom id = some el → el.disabled = false) ∧
    (callStep stepName env s).1.projectId = s.projectId ∧
    (∃ pre, Effect.request "POST" ("/api/projects/" ++ idText s.projectId ++ "/" ++ stepName)
        ∈ pre ∧
      (callStep stepName env s).1.log =
        pre ++ [Effect.updateStatus ("错误: " ++ m) "red", Effect.setInteractionState true] ++
          (if stepName = "merge" then [Effect.render "output"] else []) ++
          [Effect.loadProject s.projectId false,
           Effect.request "GET" ("/api/projects/" ++ idText s.projectId)]) := by
  obtain ⟨hp1, hc1⟩ := callStepPrepare_fields stepName s
  have hp2 : (callStepPost stepName cp (callStepPrepare stepName s)).projectId = s.projectId := by
    rw [callStepPost_projectId, hp1]
  have hrun := callStep_fail_run stepName env s cp m hpid hcp hfail
  obtain ⟨a, b, c, d⟩ := callStepCatch_spec stepName m
    (callStepPost stepName cp (callStepPrepare stepName s)) (by rw [hp2]; exact hpid)
  rw [hrun]
  refine ⟨rfl, a, b, c.trans hp2, (callStepPost stepName cp (callStepPrepare stepName s)).log,
    ?_, ?_⟩
  · unfold callStepPost
    rw [emit_log, hp1]
    simp
  · rw [d, hp2]

theorem callStep_failure_witness :
    (callStep "merge" refusedStepEnv openState).2 = none ∧
    ShowsError ("错误: " ++ "no videos to merge") (callStep "merge" refusedStepEnv openState).1 ∧
    (∀ id ∈ interactionButtons, ∀ el,
      (callStep "merge" refusedStepEnv openState).1.dom id = some el → el.disabled = false) ∧
    (callStep "merge" refusedStepEnv openState).1.projectId = openState.projectId ∧
    (∃ pre, Effect.request "POST" ("/api/projects/" ++ idText openState.projectId ++ "/" ++
          "merge") ∈ pre ∧
      (callStep "merge" refusedStepEnv openState).1.log =
        pre ++ [Effect.updateStatus ("错误: " ++ "no videos to merge") "red",
          Effect.setInteractionState true] ++
          (if "merge" = "merge" then [Effect.render "output"] else []) ++
          [Effect.loadProject openState.projectId false,
           Effect.request "GET" ("/api/projects/" ++ idText openState.projectId)]) :=
  callStep_failure "merge" refusedStepEnv openState sampleProject "no videos to merge"
    (by decide) rfl (by decide)

/-! ### Failed backend calls of the other operations -/

@[simp] theorem setCreateStatus_statusText (s : AppState) (t : String) :
    (s.setCreateStatus t).statusText = s.statusText := rfl

@[simp] theorem setCreateStatus_statusDot (s : AppState) (t : String) :
    (s.setCreateStatus t).statusDot = s.statusDot := rfl

@[simp] theorem setCreateStatus_log (s : AppState) (t : String) :
    (s.setCreateStatus t).log = s.log := rfl

theorem showsError_updateStatus (msg : String) (s : AppState) :
    ShowsError msg (updateStatus msg "red" s) := by
  refine ⟨rfl, ?_, by simp⟩
  rw [updateStatus_statusDot]
  decide

theorem createProjectTry_fail (env : CreateEnv) (s : AppState) (m : String)
    (htopic : s.mode = "topic" → env.form.topic ≠ "")
    (hscript : s.mode ≠ "topic" → env.form.script ≠ "")
    (hfail : fetchFailure CreateData.error "创建失败" env.post = some m) :
    createProjectTry env s = (s.emit (Effect.request "POST" "/api/projects"), some m) := by
  unfold createProjectTry
  have c1 : (decide (s.mode = "topic") && decide (env.form.topic = "")) = false := by
    by_cases h : s.mode = "topic"
    · simp [h, htopic h]
    · simp [h]
  have c2 : (s.mode != "topic" && decide (env.form.script = "")) = false := by
    by_cases h : s.mode = "topic"
    · simp [h]
    · simp [h, hscript h]
  rw [c1, c2]
  simp only [Bool.false_eq_true, if_false]
  unfold fetchFailure at hfail
  cases hp : env.post with
  | rejected m2 => rw [hp] at hfail; simp only [Option.some.injEq] at hfail; rw [hfail]
  | unparsable ok m2 => rw [hp] at hfail; simp only [Option.some.injEq] at hfail; rw [hfail]
  | json ok data =>
    rw [hp] at hfail
    simp only [] at hfail ⊢
    split at hfail
    · rename_i hc
      simp only [Option.some.injEq] at hfail
      rw [if_pos hc, hfail]
    · exact absurd hfail (by simp)

theorem createProject_fail (env : CreateEnv) (s : AppState) (m : String)
    (htopic : s.mode = "topic" → env.form.topic ≠ "")
    (hscript : s.mode ≠ "topic" → env.form.script ≠ "")
    (hfail : fetchFailure CreateData.error "创建失败" env.post = some m) :
    ShowsError ("错误: " ++ m) (createProject env s) := by
  have hmode : ((s.withElem .createBtn (setCreateDisabled true)).setCreateStatus "创建中...").mode
      = s.mode := by
    show (s.withElem .createBtn (setCreateDisabled true)).mode = s.mode
    unfold AppState.withElem
    cases s.dom .createBtn <;> rfl
  unfold createProject
  simp only []
  rw [createProjectTry_fail env _ m (by rw [hmode]; exact htopic) (by rw [hmode]; exact hscript)
    hfail]
  simp only [ShowsError, withElem_statusText, withElem_statusDot, withElem_log,
    setCreateStatus_statusText, setCreateStatus_statusDot, setCreateStatus_log,
    updateStatus_statusText, updateStatus_statusDot, updateStatus_log]
  exact ⟨trivial, by decide, by simp⟩

theorem generateScript_fail (resp : Fetched ScriptData) (s : AppState) (m : String)
    (hfail : fetchFailure ScriptData.error "生成失败" resp = some m) :
    ShowsError ("剧本生成失败: " ++ m) (generateScript resp s) := by
  have key : ∀ t : AppState, ShowsError ("剧本生成失败: " ++ m) (setInteractionState true
      ((updateStatus ("剧本生成失败: " ++ m) "red" t).withElem .scriptLoading (setHidden true))) := by
    intro t
    simp only [ShowsError, setInteractionState_statusText, setInteractionState_statusDot,
      setInteractionState_log, withElem_statusText, withElem_statusDot, withElem_log,
      updateStatus_statusText, updateStatus_statusDot, updateStatus_log]
    exact ⟨trivial, by decide, by simp⟩
  unfold generateScript
  unfold fetchFailure at hfail
  cases resp with
  | rejected m2 => simp only [Option.some.injEq] at hfail; subst hfail; exact key _
  | unparsable ok m2 => simp only [Option.some.injEq] at hfail; subst hfail; exact key _
  | json ok data =>
    simp only [] at hfail ⊢
    split at hfail
    · rename_i hc
      simp only [Option.some.injEq] at hfail
      rw [if_pos hc, hfail]
      exact key _
    · exact absurd hfail (by simp)

theorem saveScriptContent_fail (resp : Responded) (s : AppState) (m : String)
    (hfail : respondFailure "保存失败" resp = some m) :
    ShowsError ("保存失败: " ++ m) (saveScriptContent resp s) := by
  unfold saveScriptContent
  unfold respondFailure at hfail
  cases resp with
  | rejected m2 =>
    simp only [Option.some.injEq] at hfail; subst hfail
    exact showsError_updateStatus _ _
  | response ok =>
    simp only [] at hfail ⊢
    split at hfail
    · rename_i hc
      simp only [Option.some.injEq] at hfail
      rw [if_pos hc, ← hfail]
      exact showsError_updateStatus _ _
    · exact absurd hfail (by simp)

theorem saveStoryboard_fail (resp : Responded) (s : AppState) (m : String)
    (hfail : respondFailure "保存失败" resp = some m) :
    ShowsError ("保存分镜失败: " ++ m) (saveStoryboard resp s) := by
  unfold saveStoryboard
  unfold respondFailure at hfail
  cases resp with
  | rejected m2 =>
    simp only [Option.some.injEq] at hfail; subst hfail
    exact showsError_updateStatus _ _
  | response ok =>
    simp only [] at hfail ⊢
    split at hfail
    · rename_i hc
      simp only [Option.some.injEq] at hfail
      rw [if_pos hc, ← hfail]
      exact showsError_updateStatus _ _
    · exact absurd hfail (by simp)

theorem savePromptsData_fail (get : Fetched Project) (put : Responded) (s : AppState)
    (m : String) (hfail : savePromptsFailure get put = some m) :
    ShowsError ("保存提示词失败: " ++ m) (savePromptsData get put s) := by
  unfold savePromptsData
  unfold savePromptsFailure fetchFailure at hfail
  cases get with
  | rejected m2 =>
    simp only [Option.some.injEq] at hfail; subst hfail
    exact showsError_updateStatus _ _
  | unparsable ok m2 =>
    simp only [Option.some.injEq] at hfail; subst hfail
    exact showsError_updateStatus _ _
  | json ok p =>
    cases ok with
    | false =>
      simp [orElse] at hfail
      subst hfail
      exact showsError_updateStatus _ _
    | true =>
      simp only [Bool.not_true, Bool.false_eq_true, if_false] at hfail ⊢
      unfold respondFailure at hfail
      cases put with
      | rejected m2 =>
        simp only [Option.some.injEq] at hfail; subst hfail
        exact showsError_updateStatus _ _
      | response ok2 =>
        cases ok2 with
        | false =>
          simp at hfail
          subst hfail
          exact showsError_updateStatus _ _
        | true => simp at hfail

theorem deleteProject_fail (resp : Responded) (s : AppState) (m : String)
    (hd : truthy s.currentDetailId = true) (hfail : respondFailure "删除失败" resp = some m) :
    (deleteProject true resp s).log =
      s.log ++ [Effect.request "DELETE" ("/api/projects/" ++ idText s.currentDetailId),
        Effect.alert m] ∧
    (deleteProject true resp s).statusText = s.statusText ∧
    (deleteProject true resp s).statusDot = s.statusDot := by
  unfold deleteProject
  rw [if_neg (by simp [hd])]
  simp only [Bool.not_true, Bool.false_eq_true, if_false]
  unfold respondFailure at hfail
  cases resp with
  | rejected m2 =>
    simp only [Option.some.injEq] at hfail; subst hfail
    simp [AppState.emit]
  | response ok =>
    cases ok with
    | false =>
      simp at hfail
      subst hfail
      simp [AppState.emit]
    | true => simp at hfail

/-- C5, counterexample.  With project `p1` selected in the details dialog and the
deletion confirmed, a DELETE request that fails on the network is answered by
`alert`: `updateStatus` is not called and the status line keeps its text. -/
theorem deleteProject_counterexample :
    respondFailure "删除失败" (Responded.rejected "Failed to fetch") = some "Failed to fetch" ∧
    (¬ ∃ msg color, Effect.updateStatus msg color ∈
        (deleteProject true (Responded.rejected "Failed to fetch") openState).log) ∧
    (deleteProject true (Responded.rejected "Failed to fetch") openState).statusText =
      openState.statusText ∧
    (deleteProject true (Responded.rejected "Failed to fetch") openState).log =
      [Effect.request "DELETE" "/api/projects/p1", Effect.alert "Failed to fetch"] := by
  have hlog : (deleteProject true (Responded.rejected "Failed to fetch") openState).log =
      [Effect.request "DELETE" "/api/projects/p1", Effect.alert "Failed to fetch"] := by
    decide
  refine ⟨by decide, ?_, by decide, hlog⟩
  rintro ⟨msg, color, h⟩
  rw [hlog] at h
  simp at h

/-- C5, amended.  For `createProject`, `generateScript`, `callStep`, `saveScriptContent`,
`saveStoryboard` and `savePromptsData`, a backend call that fails with message `m` is
caught inside the operation and the status line is set through `updateStatus` to the
operation's prefix followed by `m`, with the red indicator; `deleteProject` catches the
failure too, but reports `m` through `alert` and leaves the status line untouched. -/
theorem failures_surfaced (s : AppState) (m : String) :
    (∀ env : CreateEnv, (s.mode = "topic" → env.form.topic ≠ "") →
      (s.mode ≠ "topic" → env.form.script ≠ "") →
      fetchFailure CreateData.error "创建失败" env.post = some m →
      ShowsError ("错误: " ++ m) (createProject env s)) ∧
    (∀ resp, fetchFailure ScriptData.error "生成失败" resp = some m →
      ShowsError ("剧本生成失败: " ++ m) (generateScript resp s)) ∧
    (∀ stepName env cp, truthy s.projectId = true → s.currentProject = some cp →
      stepFailure env.post = some m →
      (callStep stepName env s).2 = none ∧
      ShowsError ("错误: " ++ m) (callStep stepName env s).1) ∧
    (∀ resp, respondFailure "保存失败" resp = some m →
      ShowsError ("保存失败: " ++ m) (saveScriptContent resp s)) ∧
    (∀ resp, respondFailure "保存失败" resp = some m →
      ShowsError ("保存分镜失败: " ++ m) (saveStoryboard resp s)) ∧
    (∀ get put, savePromptsFailure get put = some m →
      ShowsError ("保存提示词失败: " ++ m) (savePromptsData get put s)) ∧
    (∀ resp, truthy s.currentDetailId = true → respondFailure "删除失败" resp = some m →
      (deleteProject true resp s).log =
        s.log ++ [Effect.request "DELETE" ("/api/projects/" ++ idText s.currentDetailId),
          Effect.alert m] ∧
      (deleteProject true resp s).statusText = s.statusText ∧
      (deleteProject true resp s).statusDot = s.statusDot) := by
  refine ⟨?_, ?_, ?_, ?_, ?_, ?_, ?_⟩
  · intro env h1 h2 h3
    exact createProject_fail env s m h1 h2 h3
  · intro resp h
    exact generateScript_fail resp s m h
  · intro stepName env cp h1 h2 h3
    have hp2 : (callStepPost stepName cp (callStepPrepare stepName s)).projectId
        = s.projectId := by
      rw [callStepPost_projectId, (callStepPrepare_fields stepName s).1]
    rw [callStep_fail_run stepName env s cp m h1 h2 h3]
    exact ⟨rfl, (callStepCatch_spec stepName m _ (by rw [hp2]; exact h1)).1⟩
  · intro resp h
    exact saveScriptContent_fail resp s m h
  · intro resp h
    exact saveStoryboard_fail resp s m h
  · intro get put h
    exact savePromptsData_fail get put s m h
  · intro resp h1 h2
    exact deleteProject_fail resp s m h1 h2

theorem failures_surfaced_witness :
    ShowsError ("错误: " ++ "Failed to fetch") (createProject unreachableCreateEnv openState) ∧
    ShowsError ("剧本生成失败: " ++ "Failed to fetch")
      (generateScript (Fetched.rejected "Failed to fetch") openState) ∧
    ((callStep "videos" (StepEnv.mk (Fetched.rejected "Failed to fetch")
        (Fetched.rejected "Failed to fetch")) openState).2 = none ∧
      ShowsError ("错误: " ++ "Failed to fetch")
        (callStep "videos" (StepEnv.mk (Fetched.rejected "Failed to fetch")
          (Fetched.rejected "Failed to fetch")) openState).1) ∧
    ShowsError ("保存失败: " ++ "Failed to fetch")
      (saveScriptContent (Responded.rejected "Failed to fetch") openState) ∧
    ShowsError ("保存分镜失败: " ++ "Failed to fetch")
      (saveStoryboard (Responded.rejected "Failed to fetch") openState) ∧
    ShowsError ("保存提示词失败: " ++ "Failed to fetch")
      (savePromptsData (Fetched.json true sampleProject) (Responded.rejected "Failed to fetch")
        openState) ∧
    ((deleteProject true (Responded.rejected "Failed to fetch") openState).log =
        openState.log ++ [Effect.request "DELETE" ("/api/projects/" ++
          idText openState.currentDetailId), Effect.alert "Failed to fetch"] ∧
      (deleteProject true (Responded.rejected "Failed to fetch") openState).statusText =
        openState.statusText ∧
      (deleteProject true (Responded.rejected "Failed to fetch") openState).statusDot =
        openState.statusDot) :=
  ⟨(failures_surfaced openState "Failed to fetch").1 unreachableCreateEnv
      (fun _ => by decide) (fun h => absurd rfl h) rfl,
    (failures_surfaced openState "Failed to fetch").2.1 _ rfl,
    (failures_surfaced openState "Failed to fetch").2.2.1 "videos" _ sampleProject
      (by decide) rfl rfl,
    (failures_surfaced openState "Failed to fetch").2.2.2.1 _ rfl,
    (failures_surfaced openState "Failed to fetch").2.2.2.2.1 _ rfl,
    (failures_surfaced openState "Failed to fetch").2.2.2.2.2.1 _ _ rfl,
    (failures_surfaced openState "Failed to fetch").2.2.2.2.2.2 _ (by decide) rfl⟩

/-! ### Finishing a step: the two buttons after `setInteractionState(true)` -/

@[simp] theorem setViewClass_dom (s : AppState) (id : String) (cl : List String) :
    (s.setViewClass id cl).dom = s.dom := rfl

@[simp] theorem switchTab_dom (tab : String) (s : AppState) :
    (switchTab tab s).dom = s.dom := by
  unfold switchTab
  simp only [views, List.map, List.foldl]
  split <;> simp only [setViewClass_dom]

theorem hideAllLoading_dom_button (s : AppState) (id : ElemId)
    (hid : id ∈ interactionButtons) : (hideAllLoading s).dom id = s.dom id := by
  simp only [hideAllLoading, List.foldl, setLoading_dom_button _ _ _ _ hid]

theorem hideIndicators_dom_button (s : AppState) (id : ElemId)
    (hid : id ∈ interactionButtons) : (hideIndicators s).1.dom id = s.dom id := by
  unfold hideIndicators
  split
  · simp only [hideAllLoading_dom_button _ _ hid, withElem_dom]
    rw [if_neg]
    intro h
    subst h
    simp [interactionButtons] at hid
  · rfl

theorem pollCatch_dom (r : AppState × Option String) : (pollCatch r).dom = r.1.dom := by
  unfold pollCatch
  split <;> rfl

theorem loadProject_returns (id : Option String) (b : Bool) (resp : Fetched Project)
    (s : AppState) (h : refreshThrows resp = none) : (loadProject id b resp s).2 = none := by
  unfold loadProject
  cases resp with
  | rejected m => simp [refreshThrows] at h
  | unparsable ok m => simp [refreshThrows] at h
  | json ok p =>
    simp only []
    split <;> rfl

/-- After `setInteractionState(true)` every existing button of its list is enabled. -/
theorem setInteractionState_enables (s : AppState) (id : ElemId)
    (hid : id ∈ interactionButtons) (el : Element)
    (h : (setInteractionState true s).dom id = some el) : el.disabled = false := by
  rw [setInteractionState_dom, if_pos hid] at h
  exact interactionElem_enabled _ _ h

/-- The end of `callStep` when the POST succeeds without a task id and the project
request does not throw. -/
theorem callStepTry_finished (stepName : String) (env : StepEnv) (s : AppState)
    (data : StepData) (hpost : env.post = Fetched.json true data)
    (hno : truthy data.task_id = false) (hproj : refreshThrows env.project = none) :
    callStepTry stepName env s =
      (switchTab (tabOfStep stepName) (setInteractionState true
        (updateStatus "执行成功" "green" (loadProject s.projectId true env.project s).1)),
        none) := by
  unfold callStepTry
  rw [hpost]
  simp only [Bool.not_true, Bool.false_and, Bool.false_eq_true, if_false, hno]
  have h2 := loadProject_returns s.projectId true env.project s hproj
  cases hlp : loadProject s.projectId true env.project s with
  | mk s2 err =>
    rw [hlp] at h2
    simp only at h2
    subst h2
    rfl

/-- The end of a tick that observes `completed` and whose project request does not
throw. -/
theorem tickCompleted_finished (cb : Option OnComplete) (project : Fetched Project)
    (s : AppState) (hproj : refreshThrows project = none) :
    tickCompleted cb project s =
      hideIndicators (setInteractionState true
        (loadProject (runOnComplete cb (updateStatus "任务已完成，正在同步数据..." "green"
          (stopPolling s))).projectId false project
          (runOnComplete cb (updateStatus "任务已完成，正在同步数据..." "green"
            (stopPolling s)))).1) := by
  unfold tickCompleted
  simp only []
  have h2 := loadProject_returns (runOnComplete cb (updateStatus "任务已完成，正在同步数据..." "green"
      (stopPolling s))).projectId false project (runOnComplete cb
      (updateStatus "任务已完成，正在同步数据..." "green" (stopPolling s))) hproj
  cases hlp : loadProject (runOnComplete cb (updateStatus "任务已完成，正在同步数据..." "green"
      (stopPolling s))).projectId false project (runOnComplete cb
      (updateStatus "任务已完成，正在同步数据..." "green" (stopPolling s))) with
  | mk s2 err =>
    rw [hlp] at h2
    simp only at h2
    subst h2
    rfl

/-- C11, the failing case.  Whatever project is loaded, both operations that finish a
step end with the merge button and the images-to-videos button enabled: `callStep`
whose POST succeeds without a task id, and a tick that observes `completed`, call
`setInteractionState(true)` after `loadProject`, which overwrites the `disabled`
flags that `updateNextButtonState` has just computed from the project. -/
theorem finished_step_enables_buttons (s : AppState) :
    (∀ stepName env cp data, truthy s.projectId = true → s.currentProject = some cp →
      env.post = Fetched.json true data → truthy data.task_id = false →
      refreshThrows env.project = none →
      ∀ id, id = ElemId.btnMerge ∨ id = ElemId.btnNextToVideos →
      ∀ el, (callStep stepName env s).1.dom id = some el → el.disabled = false) ∧
    (∀ taskId cb env task, env.task = Fetched.json true task → task.status = "completed" →
      refreshThrows env.project = none →
      ∀ id, id = ElemId.btnMerge ∨ id = ElemId.btnNextToVideos →
      ∀ el, (pollTick taskId cb env s).dom id = some el → el.disabled = false) := by
  have hmem : ∀ id, id = ElemId.btnMerge ∨ id = ElemId.btnNextToVideos →
      id ∈ interactionButtons := by
    intro id hid
    rcases hid with h | h <;> subst h <;> decide
  refine ⟨?_, ?_⟩
  · intro stepName env cp data hpid hcp hpost hno hproj id hid el hel
    obtain ⟨_, hc1⟩ := callStepPrepare_fields stepName s
    have hrun : callStep stepName env s =
        callStepTry stepName env (callStepPost stepName cp (callStepPrepare stepName s)) := by
      unfold callStep
      rw [if_neg (by simp [hpid])]
      simp only [hc1, hcp]
      rw [callStepTry_finished stepName env _ data hpost hno hproj]
    rw [hrun, callStepTry_finished stepName env _ data hpost hno hproj] at hel
    simp only [switchTab_dom] at hel
    exact setInteractionState_enables _ id (hmem id hid) el hel
  · intro taskId cb env task htask hdone hproj id hid el hel
    have hrun : pollTick taskId cb env s = pollCatch (tickCompleted cb env.project
        (s.emit (Effect.request "GET" ("/api/tasks/" ++ taskId)))) := by
      unfold pollTick pollTry
      rw [htask]
      simp only [Bool.not_true, Bool.false_eq_true, if_false, if_pos hdone]
    rw [hrun, pollCatch_dom, tickCompleted_finished cb env.project _ hproj,
      hideIndicators_dom_button _ _ (hmem id hid)] at hel
    exact setInteractionState_enables _ id (hmem id hid) el hel

theorem finished_step_enables_buttons_witness :
    (¬ AllShotsHaveVideoSpec sampleProject ∧ ¬ AllShotsHaveImageSpec sampleProject) ∧
    ((callStep "images" finishedStepEnv openState).1.currentProject = some sampleProject ∧
      ((callStep "images" finishedStepEnv openState).1.dom .btnMerge).map Element.disabled
        = some false ∧
      ((callStep "images" finishedStepEnv openState).1.dom .btnNextToVideos).map
        Element.disabled = some false) ∧
    ((pollTick "t1" none completedEnv pollingState).currentProject = some sampleProject ∧
      ((pollTick "t1" none completedEnv pollingState).dom .btnMerge).map Element.disabled
        = some false ∧
      ((pollTick "t1" none completedEnv pollingState).dom .btnNextToVideos).map
        Element.disabled = some false) ∧
    (((pollTick "t1" none failedEnv pollingState).dom .btnMerge).map Element.disabled
        = some true ∧
      ((pollTick "t1" none failedEnv pollingState).dom .btnNextToVideos).map
        Element.disabled = some true) ∧
    (∀ el, (callStep "images" finishedStepEnv openState).1.dom .btnMerge = some el →
      el.disabled = false) ∧
    (∀ el, (pollTick "t1" none completedEnv pollingState).dom .btnNextToVideos = some el →
      el.disabled = false) :=
  ⟨⟨fun h => absurd (h.2 0 (by decide)) (by decide),
      fun h => absurd (h.2 0 (by decide)) (by decide)⟩,
    by decide, by decide, by decide,
    (finished_step_enables_buttons openState).1 "images" finishedStepEnv sampleProject
      (StepData.mk none none none) (by decide) rfl rfl (by decide) rfl .btnMerge (Or.inl rfl),
    (finished_step_enables_buttons pollingState).2 "t1" none completedEnv
      (Task.mk "completed" none (some 100)) rfl rfl rfl .btnNextToVideos (Or.inr rfl)⟩

/-! ### `setInteractionState` and the buttons that start a step -/

theorem uncontrolledStepButtons_eq :
    uncontrolledStepButtons =
      [.btnNextToCharacters, .btnNextToScenes, .btnGenChars, .btnGenCharPrompts,
       .btnGenCharImages, .btnGenScenes, .btnGenScenePrompts, .btnGenSceneImages] := by
  decide

/-- C12, the failing case.  Eight of the buttons that `setupEventListeners` binds to
`callStep` are missing from the list of `setInteractionState`: the two next-step
buttons for characters and scenes and the six character and scene generation
buttons.  `setInteractionState(enabled)` leaves them exactly as they were, so a
button of them that is enabled stays enabled while interaction is disabled; on the
buttons of its list it does set `disabled = !enabled`. -/
theorem setInteractionState_misses_step_buttons (enabled : Bool) (s : AppState) :
    (∀ id ∈ uncontrolledStepButtons,
      id ∈ callStepBindings.map Prod.fst ∧
      (setInteractionState enabled s).dom id = s.dom id) ∧
    (∀ id ∈ interactionButtons, ∀ el,
      (setInteractionState enabled s).dom id = some el → el.disabled = !enabled) := by
  refine ⟨?_, ?_⟩
  · intro id hid
    have h1 : id ∈ callStepBindings.map Prod.fst ∧ id ∉ interactionButtons := by
      unfold uncontrolledStepButtons at hid
      simpa using hid
    refine ⟨h1.1, ?_⟩
    rw [setInteractionState_dom, if_neg h1.2]
  · intro id hid el hel
    rw [setInteractionState_dom, if_pos hid] at hel
    cases hd : s.dom id with
    | none => rw [hd] at hel; simp at hel
    | some e =>
      rw [hd] at hel
      simp only [Option.map_some', Option.some.injEq] at hel
      rw [← hel]
      rfl

theorem setInteractionState_misses_step_buttons_witness :
    (ElemId.btnGenChars ∈ callStepBindings.map Prod.fst ∧
      (setInteractionState false openState).dom .btnGenChars = openState.dom .btnGenChars) ∧
    ((setInteractionState false openState).dom .btnGenChars).map Element.disabled
      = some false ∧
    ((setInteractionState false openState).dom .btnGenVideos).map Element.disabled
      = some true ∧
    Effect.request "POST" "/api/projects/p1/characters" ∈
      (clickStepButton .btnGenChars finishedStepEnv (setInteractionState false openState)).1.log ∧
    Effect.request "POST" "/api/projects/p1/videos" ∉
      (clickStepButton .btnGenVideos finishedStepEnv (setInteractionState false openState)).1.log :=
  ⟨(setInteractionState_misses_step_buttons false openState).1 .btnGenChars (by decide),
    by decide⟩

/-! ### `loadProject`: the tab it resumes on -/

@[simp] theorem withElem_currentTab (s : AppState) (id : ElemId) (f : Element → Element) :
    (s.withElem id f).currentTab = s.currentTab := by
  unfold AppState.withElem
  cases s.dom id <;> rfl

@[simp] theorem emit_currentTab (s : AppState) (e : Effect) :
    (s.emit e).currentTab = s.currentTab := rfl

@[simp] theorem updateStatus_currentTab (m c : String) (s : AppState) :
    (updateStatus m c s).currentTab = s.currentTab := rfl

@[simp] theorem setLoading_currentTab (step : String) (b : Bool) (s : AppState) :
    (setLoading step b s).currentTab = s.currentTab := by
  unfold setLoading
  cases loadingElem step <;> simp

@[simp] theorem hideAllLoading_currentTab (s : AppState) :
    (hideAllLoading s).currentTab = s.currentTab := by
  simp only [hideAllLoading, List.foldl, setLoading_currentTab]

@[simp] theorem setInteractionState_currentTab (b : Bool) (s : AppState) :
    (setInteractionState b s).currentTab = s.currentTab := by
  simp only [setInteractionState, interactionButtons, List.foldl, emit_currentTab,
    withElem_currentTab]

@[simp] theorem stopPolling_currentTab (s : AppState) :
    (stopPolling s).currentTab = s.currentTab := by
  unfold stopPolling clearInterval
  cases s.pollingInterval <;> rfl

@[simp] theorem loadProjectBegin_currentTab (id : Option String) (b : Bool) (s : AppState) :
    (loadProjectBegin id b s).currentTab = s.currentTab := rfl

@[simp] theorem updateNextButtonState_currentTab (p : Option Project) (s : AppState) :
    (updateNextButtonState p s).currentTab = s.currentTab := by
  cases p <;> simp [updateNextButtonState]

@[simp] theorem setOutScript_currentTab (s : AppState) (t : String) :
    (s.setOutScript t).currentTab = s.currentTab := rfl

@[simp] theorem setCurrentProject_currentTab (s : AppState) (p : Option Project) :
    (s.setCurrentProject p).currentTab = s.currentTab := rfl

@[simp] theorem showProject_currentTab (p : Project) (s : AppState) :
    (showProject p s).currentTab = s.currentTab := by
  have h : ∀ t : AppState, (settleLoading p t).currentTab = t.currentTab := by
    intro t
    unfold settleLoading
    simp only []
    repeat' split
    all_goals simp
  unfold showProject
  simp only [h, renderProject, emit_currentTab, withElem_currentTab,
    updateNextButtonState_currentTab, updateStatus_currentTab, setOutScript_currentTab,
    setCurrentProject_currentTab]

@[simp] theorem completedBlock_currentTab (p : Project) (s : AppState) :
    (completedBlock p s).currentTab = s.currentTab := by
  unfold completedBlock
  split
  · simp only []
    split <;> simp
  · rfl

@[simp] theorem switchTab_currentTab (tab : String) (s : AppState) :
    (switchTab tab s).currentTab = tab := by
  unfold switchTab
  simp only [views, List.map, List.foldl]
  split <;> rfl

theorem loadProject_ok_currentTab (id : Option String) (b : Bool) (p : Project)
    (s : AppState) :
    (loadProject id b (Fetched.json true p) s).1.currentTab =
      (resumeTab p b s).currentTab := by
  unfold loadProject
  simp only [Bool.not_true, Bool.false_eq_true, if_false]
  unfold resumeTab
  repeat' split
  all_goals simp

theorem stepTab_inRange (k : Int) (h0 : 0 ≤ k) (h8 : k ≤ 8) :
    STEP_TABS[k.toNat]? = some (stepTab (some k)) := by
  obtain ⟨n, rfl⟩ := Int.eq_ofNat_of_zero_le h0
  have hn : n ≤ 8 := by omega
  simp only [stepTab, h0, if_true, Int.toNat_ofNat]
  interval_cases n <;> decide

theorem stepTab_outside (k : Int) (h : k < 0 ∨ 8 < k) : stepTab (some k) = "script" := by
  unfold stepTab
  simp only []
  split
  · rename_i h0
    obtain ⟨n, rfl⟩ := Int.eq_ofNat_of_zero_le h0
    have hn : 9 ≤ n := by omega
    have hlen : STEP_TABS.length = 9 := by decide
    rw [Int.toNat_ofNat, List.getElem?_eq_none (by omega)]
    rfl
  · rfl

/-- C13. For every project `p` returned with an OK response, `loadProject(id)` with
`shouldSwitchTab = true` leaves `currentTab` equal to `output` when `p.status` is
`completed` or `p.final_video` is set; otherwise equal to `STEP_TABS[p.current_step]`
when `current_step` is within `0..8`, and to `script` when `current_step` is missing
or outside `0..8`.  With `shouldSwitchTab = false`, `currentTab` is unchanged. -/
theorem loadProject_resume_tab (id : Option String) (p : Project) (s : AppState) :
    ((p.status = "completed" ∨ truthy p.final_video = true) →
      (loadProject id true (Fetched.json true p) s).1.currentTab = "output") ∧
    (¬ (p.status = "completed" ∨ truthy p.final_video = true) →
      (∀ k : Int, p.current_step = some k → 0 ≤ k → k ≤ 8 →
        STEP_TABS[k.toNat]? =
          some (loadProject id true (Fetched.json true p) s).1.currentTab) ∧
      ((p.current_step = none ∨ ∃ k : Int, p.current_step = some k ∧ (k < 0 ∨ 8 < k)) →
        (loadProject id true (Fetched.json true p) s).1.currentTab = "script")) ∧
    (loadProject id false (Fetched.json true p) s).1.currentTab = s.currentTab := by
  refine ⟨?_, ?_, ?_⟩
  · intro h
    rw [loadProject_ok_currentTab]
    unfold resumeTab
    have hc : (decide (p.status = "completed") || truthy p.final_video) = true := by
      rcases h with h | h
      · simp [h]
      · simp [h]
    simp only [if_true, hc, switchTab_currentTab]
  · intro h
    have hc : (decide (p.status = "completed") || truthy p.final_video) = false := by
      cases hv : (decide (p.status = "completed") || truthy p.final_video) with
      | false => rfl
      | true =>
        exfalso
        apply h
        simpa using hv
    have hres : (loadProject id true (Fetched.json true p) s).1.currentTab
        = stepTab p.current_step := by
      rw [loadProject_ok_currentTab]
      unfold resumeTab
      simp only [if_true, hc, Bool.false_eq_true, if_false, switchTab_currentTab]
    refine ⟨?_, ?_⟩
    · intro k hk h0 h8
      rw [hres, hk]
      exact stepTab_inRange k h0 h8
    · intro hk
      rw [hres]
      rcases hk with hk | ⟨k, hk, hr⟩
      · rw [hk]; rfl
      · rw [hk]; exact stepTab_outside k hr
  · rw [loadProject_ok_currentTab]
    unfold resumeTab
    simp

theorem loadProject_resume_tab_witness :
    (loadProject (some "p1") true (Fetched.json true mergedProject) initialState).1.currentTab
      = "output" ∧
    STEP_TABS[(3 : Int).toNat]? =
      some (loadProject (some "p1") true (Fetched.json true storyboardStepProject)
        initialState).1.currentTab ∧
    (loadProject (some "p1") true (Fetched.json true noStepProject) initialState).1.currentTab
      = "script" ∧
    (loadProject (some "p1") true (Fetched.json true storyboardStepProject)
        initialState).1.currentTab = "storyboard" :=
  ⟨(loadProject_resume_tab (some "p1") mergedProject initialState).1 (Or.inr (by decide)),
    ((loadProject_resume_tab (some "p1") storyboardStepProject initialState).2.1
      (by decide)).1 3 rfl (by decide) (by decide),
    ((loadProject_resume_tab (some "p1") noStepProject initialState).2.1
      (by decide)).2 (Or.inl rfl),
    by decide⟩

/-! ### `switchTab`: the visible view -/

theorem hidden_mem_classListAdd (cl : List String) :
    "hidden" ∈ classListAdd cl ["hidden"] := by
  unfold classListAdd
  simp only [List.foldl]
  split
  · rename_i h
    simpa using h
  · simp

theorem hidden_not_mem_classListRemove (cl : List String) :
    "hidden" ∉ classListRemove cl ["hidden"] := by
  unfold classListRemove
  simp

theorem setViewClass_viewClass (st : AppState) (a id : String) (cl : List String) :
    (st.setViewClass a cl).viewClass id = if id = a then cl else st.viewClass id := by
  unfold AppState.setViewClass
  by_cases h : id = a
  · subst h; simp
  · simp [h]

/-- The loop that hides the views: afterwards every view of the list is hidden, and a
view that was hidden before still is. -/
theorem hideLoop_hidden (l : List String) (st : AppState) (id : String)
    (h : id ∈ l ∨ "hidden" ∈ st.viewClass id) :
    "hidden" ∈ (l.foldl (fun st id => st.setViewClass id
      (classListAdd (st.viewClass id) ["hidden"])) st).viewClass id := by
  induction l generalizing st with
  | nil =>
    rcases h with h | h
    · simp at h
    · exact h
  | cons a l ih =>
    rw [List.foldl_cons]
    apply ih
    by_cases ha : id = a
    · right
      subst ha
      simp only [AppState.setViewClass, Function.update_same]
      exact hidden_mem_classListAdd _
    · rcases h with h | h
      · left
        simpa [ha] using h
      · right
        simp only [AppState.setViewClass, Function.update_noteq ha]
        exact h

/-- C14. For every `tabName` in `tabs`, after `switchTab(tabName)` the variable
`currentTab` equals `tabName`, the view `views[tabName]` is visible and every other
view of the table is hidden.  For a name that is not a key of `views`, every view
of the table is hidden. -/
theorem switchTab_views (tabName : String) (s : AppState) :
    (tabName ∈ tabs →
      (switchTab tabName s).currentTab = tabName ∧
      ∃ active, views.lookup tabName = some active ∧
        ¬ ViewHidden (switchTab tabName s) active ∧
        ∀ t id, (t, id) ∈ views → id ≠ active → ViewHidden (switchTab tabName s) id) ∧
    (views.lookup tabName = none →
      ∀ t id, (t, id) ∈ views → ViewHidden (switchTab tabName s) id) := by
  have hall : ∀ (st : AppState) (t id : String), (t, id) ∈ views →
      "hidden" ∈ ((views.map Prod.snd).foldl (fun st id => st.setViewClass id
        (classListAdd (st.viewClass id) ["hidden"])) st).viewClass id := by
    intro st t id hm
    apply hideLoop_hidden
    left
    exact List.mem_map_of_mem Prod.snd hm
  refine ⟨?_, ?_⟩
  · intro htab
    refine ⟨switchTab_currentTab tabName s, ?_⟩
    have hex : ∃ active, views.lookup tabName = some active := by
      simp only [tabs, List.mem_cons, List.mem_singleton, List.not_mem_nil, or_false] at htab
      apply Option.isSome_iff_exists.mp
      rcases htab with h | h | h | h | h | h | h | h | h <;> subst h <;> decide
    obtain ⟨active, hact⟩ := hex
    refine ⟨active, hact, ?_, ?_⟩
    · unfold ViewHidden switchTab
      simp only [hact, setViewClass_viewClass, if_true]
      exact hidden_not_mem_classListRemove _
    · intro t id hm hne
      unfold ViewHidden switchTab
      simp only [hact, setViewClass_viewClass, if_neg hne]
      exact hall _ t id hm
  · intro hnone t id hm
    unfold ViewHidden switchTab
    simp only [hnone]
    exact hall _ t id hm

theorem switchTab_views_witness :
    ((switchTab "images" initialState).currentTab = "images" ∧
      ∃ active, views.lookup "images" = some active ∧
        ¬ ViewHidden (switchTab "images" initialState) active ∧
        ∀ t id, (t, id) ∈ views → id ≠ active →
          ViewHidden (switchTab "images" initialState) id) ∧
    (∀ t id, (t, id) ∈ views → ViewHidden (switchTab "merge" initialState) id) ∧
    (switchTab "images" initialState).viewClass "view-images" = [] ∧
    (switchTab "images" initialState).viewClass "view-videos" = ["hidden"] :=
  ⟨(switchTab_views "images" initialState).1 (by decide),
    (switchTab_views "merge" initialState).2 (by decide),
    by decide, by decide⟩

end ShortDrama
